import Mathlib

/-!
Verification development for the blender-code3 BIM scripts.

The Python sources are embedded shallowly:
* object locations are exact rationals (`ℚ`); the Python floats' `math.sqrt`
  appears only in theorem statements as `Real.sqrt` applied to the stored
  squared quantity, and float comparisons such as `sqrt s > 100` are encoded
  as the equivalent exact comparison `s > 100 ^ 2`;
* `bpy.data.objects` is a flat store of named objects and collections refer
  to objects by name, so that an object linked into several collections is
  shared between them, as in Blender;
* Python `dict`s are insertion-ordered association lists where a repeated
  key overwrites the stored value in place;
* Python's stable `list.sort` is modelled by a stable insertion sort.
-/

namespace BlenderBim

/-- Exact 3-D point, mirroring a Blender object location. -/
structure Vec3 where
  x : ℚ
  y : ℚ
  z : ℚ
deriving DecidableEq

/-- Axis access, mirroring Python indexing `location[i]` for `i = 0, 1, 2`. -/
def Vec3.nth (v : Vec3) : Fin 3 → ℚ
  | 0 => v.x
  | 1 => v.y
  | 2 => v.z

/-- Componentwise addition, mirroring `obj.location.x += d[0]` etc. -/
def Vec3.add (a b : Vec3) : Vec3 :=
  ⟨a.x + b.x, a.y + b.y, a.z + b.z⟩

/-- A scene object: name, Blender type tag (`"MESH"`, `"EMPTY"`, ...) and
location. -/
structure PObj where
  name : String
  otype : String
  location : Vec3
deriving DecidableEq

/- Collection tree: a name, the directly linked object names, and the child
collections. A mutual inductive is used so that recursion over the tree stays
structural. -/
mutual
inductive CollT where
  | node (name : String) (objNames : List String) (children : CollTs)
inductive CollTs where
  | nil
  | cons (c : CollT) (cs : CollTs)
end

def CollTs.ofList : List CollT → CollTs
  | [] => .nil
  | c :: cs => .cons c (CollTs.ofList cs)

def CollT.name : CollT → String
  | .node n _ _ => n

def CollT.objNames : CollT → List String
  | .node _ ns _ => ns

def CollT.children : CollT → CollTs
  | .node _ _ cs => cs

/-- A scene: the flat object store (`bpy.data.objects`) and the flat registry
of collections (`bpy.data.collections`; child collections are also listed
there in Blender, with their subtrees repeated inline here). -/
structure Scene where
  objs : List PObj
  colls : List CollT

/-- Python `sub in s` substring test on strings. -/
def strContains (sub s : String) : Bool :=
  decide (sub.toList <:+: s.toList)

/-- Python `s.lower()`. -/
def pyLower (s : String) : String :=
  String.mk (s.toList.map Char.toLower)

/-- One step of Python `s.replace(pat, rep)`; the fuel argument makes the
recursion structural (it is always run with fuel `≥` the string length, and
each step consumes at least one character when `pat` is nonempty). -/
def pyReplaceAux (pat rep : List Char) : Nat → List Char → List Char
  | 0, s => s
  | _ + 1, [] => []
  | fuel + 1, c :: rest =>
    if pat ≠ [] ∧ pat.isPrefixOf (c :: rest) then
      rep ++ pyReplaceAux pat rep fuel ((c :: rest).drop pat.length)
    else
      c :: pyReplaceAux pat rep fuel rest

/-- Python `s.replace(pat, rep)`: replace every occurrence, left to right. -/
def pyReplace (s pat rep : String) : String :=
  String.mk (pyReplaceAux pat.toList rep.toList s.toList.length s.toList)

/-- Python `s.startswith(pre)`. -/
def pyStartsWith (s pre : String) : Bool :=
  pre.toList.isPrefixOf s.toList

/-- Embedding of `CollAligner._extract_ifc_category` (also duplicated in
`coll_selector.py`): if `'Ifc' in object_name`, return the first
`'/'`-separated part starting with `'Ifc'`, else `None`. -/
def extract_ifc_category (object_name : String) : Option String :=
  if strContains "Ifc" object_name then
    ((object_name.toList.splitOn '/').find? (fun part => "Ifc".toList.isPrefixOf part)).map
      (fun part => String.mk part)
  else
    none

/-- Specification-side form of `_extract_ifc_category` used by claim C9: the
first `'/'`-separated part of the name that starts with `'Ifc'`, with no
pre-test that `'Ifc'` occurs in the name at all. -/
def firstIfcPart (object_name : String) : Option String :=
  ((object_name.toList.splitOn '/').find? (fun part => "Ifc".toList.isPrefixOf part)).map
    (fun part => String.mk part)

/-- Embedding of `CollAligner._extract_specific_name`: take the part between
the first and second `'/'`, then drop everything from the first `'.'` on. -/
def extract_specific_name (object_name : String) : String :=
  if strContains "/" object_name then
    let specific := (object_name.toList.splitOn '/').getD 1 []
    if specific.contains '.' then
      String.mk ((specific.splitOn '.').getD 0 [])
    else
      String.mk specific
  else
    object_name

/-- Embedding of `floor_usage_analyzer.categorize_element`: keyword lookup on
the lowercased name. -/
def categorize_element (name : String) : String :=
  let low := pyLower name
  if strContains "chambre" low || strContains "bedroom" low || strContains "room" low then
    "CHAMBRE"
  else if strContains "bain" low || strContains "bath" low || strContains "douche" low ||
      strContains "shower" low || strContains "toilette" low || strContains "toilet" low ||
      strContains "wc" low then
    "SALLE_DE_BAIN"
  else if strContains "cuisine" low || strContains "kitchen" low then
    "CUISINE"
  else if strContains "salon" low || strContains "living" low || strContains "sejour" low then
    "SALON"
  else if strContains "foyer" low || strContains "entree" low || strContains "entrance" low ||
      strContains "hall" low then
    "FOYER"
  else if strContains "bureau" low || strContains "office" low || strContains "etude" low then
    "BUREAU"
  else if strContains "corridor" low || strContains "couloir" low || strContains "passage" low ||
      strContains "hallway" low then
    "CORRIDOR"
  else if strContains "rangement" low || strContains "storage" low || strContains "closet" low then
    "RANGEMENT"
  else
    "ESPACE_GENERAL"

/-- Embedding of `_find_collection`: exact-name search over the flat registry
first, then first collection whose name contains the query as a substring. -/
def findColl (cs : List CollT) (query : String) : Option CollT :=
  match cs.find? (fun c => c.name == query) with
  | some c => some c
  | none => cs.find? (fun c => strContains query c.name)

/-- Store lookup by object name (`bpy.data.objects[name]`; Blender object
names are unique). -/
def lookupObj (objs : List PObj) (n : String) : Option PObj :=
  objs.find? (fun o => o.name == n)

/- Pre-order walk collecting the objects of a collection and of all its
sub-collections, resolving object names through the store: embedding of the
`analyze_recursive` / `search_recursive` traversals of `coll_aligner.py`. -/
mutual
def walkObjs (store : List PObj) : CollT → List PObj
  | .node _ ns cs => ns.filterMap (lookupObj store) ++ walkObjsMany store cs
def walkObjsMany (store : List PObj) : CollTs → List PObj
  | .nil => []
  | .cons c cs => walkObjs store c ++ walkObjsMany store cs
end

/- Pre-order walk collecting the linked object names with multiplicity, as
`move_recursive` in `apply_precise_alignment` visits them. -/
mutual
def walkNames : CollT → List String
  | .node _ ns cs => ns ++ walkNamesMany cs
def walkNamesMany : CollTs → List String
  | .nil => []
  | .cons c cs => walkNames c ++ walkNamesMany cs
end

/-- Entry of `empty_objects` / `mesh_objects` / `key_reference_points` in
`_analyze_collection_positions`. -/
structure EmptyInfo where
  name : String
  location : Vec3
  ifc_category : Option String
deriving DecidableEq

/-- Running min/max over a list of axis values, mirroring the Python fold that
starts from `float('inf')` / `float('-inf')`: `none` stands for the initial
infinite value, which the first object location always replaces. -/
def optFold (f : ℚ → ℚ → ℚ) (vals : List ℚ) : Option ℚ :=
  vals.foldl (fun m v => some (match m with | none => v | some q => f q v)) none

/-- Axis values of a list of objects. -/
def axisVals (objs : List PObj) (i : Fin 3) : List ℚ :=
  objs.map (fun o => o.location.nth i)

/-- Result of `_analyze_collection_positions`. `posMin i = none` corresponds
to the `float('inf')` that is left in place when the collection has no
objects; `center` stays `0` in that case, exactly as in the Python. The
`ifc_categories` counters and `bounds` sizes are not modelled (no claim
mentions them). -/
structure CollAnalysis where
  collection_name : String
  label : String
  total_objects : Nat
  empty_objects : List EmptyInfo
  mesh_objects : List EmptyInfo
  posMin : Fin 3 → Option ℚ
  posMax : Fin 3 → Option ℚ
  center : Fin 3 → ℚ
  key_reference_points : List EmptyInfo

/-- Embedding of `CollAligner._analyze_collection_positions`. -/
def analyzePositions (store : List PObj) (c : CollT) (label : String) : CollAnalysis :=
  let objs := walkObjs store c
  let empties := (objs.filter (fun o => o.otype == "EMPTY")).map
    (fun o => (⟨o.name, o.location, extract_ifc_category o.name⟩ : EmptyInfo))
  let meshes := (objs.filter (fun o => o.otype == "MESH")).map
    (fun o => (⟨o.name, o.location, extract_ifc_category o.name⟩ : EmptyInfo))
  let pmin := fun i => optFold min (axisVals objs i)
  let pmax := fun i => optFold max (axisVals objs i)
  { collection_name := c.name
    label := label
    total_objects := objs.length
    empty_objects := empties
    mesh_objects := meshes
    posMin := pmin
    posMax := pmax
    center := fun i =>
      if 0 < objs.length then (((pmin i).getD 0) + ((pmax i).getD 0)) / 2 else 0
    key_reference_points := empties.filter (fun e =>
      strContains "IfcBuildingStorey" e.name || strContains "IfcSite" e.name ||
        strContains "IfcBuilding" e.name) }

/-- Entry of `reference_point_distances`; the Python stores
`math.sqrt(distance_sq)`. -/
structure RefDist where
  category : Option String
  object1 : String
  object2 : String
  distance_sq : ℚ
deriving DecidableEq

/-- Result of `_calculate_collections_distance`. The Python stores
`math.sqrt` of the `_sq` fields; every later comparison of such a field with
a threshold `t` is embedded as a comparison with `t ^ 2`, which is equivalent
because `math.sqrt` is monotone and the stored squares are nonnegative. -/
structure DistAnalysis where
  center_distance_sq : ℚ
  min_distance_sq : ℚ
  max_distance_sq : ℚ
  axis_distances : Vec3
  alignment_issues : List String
  reference_point_distances : List RefDist

def centerDistSq (a1 a2 : CollAnalysis) : ℚ :=
  (a1.center 0 - a2.center 0) ^ 2 + (a1.center 1 - a2.center 1) ^ 2 +
    (a1.center 2 - a2.center 2) ^ 2

def axisDistances (a1 a2 : CollAnalysis) : Vec3 :=
  ⟨|a1.center 0 - a2.center 0|, |a1.center 1 - a2.center 1|, |a1.center 2 - a2.center 2|⟩

/-- The stored per-axis bound, with the `0` default never reached when the
collection is nonempty (the Python value is `±inf` for an empty collection). -/
def boundMin (a : CollAnalysis) (i : Fin 3) : ℚ :=
  (a.posMin i).getD 0

def boundMax (a : CollAnalysis) (i : Fin 3) : ℚ :=
  (a.posMax i).getD 0

/-- Per-axis contribution to `min_distance`: the squared gap on an axis where
the bounding boxes do not overlap, `0` otherwise. -/
def axisGapSq (a1 a2 : CollAnalysis) (i : Fin 3) : ℚ :=
  if boundMax a1 i < boundMin a2 i ∨ boundMax a2 i < boundMin a1 i then
    (min |boundMax a1 i - boundMin a2 i| |boundMax a2 i - boundMin a1 i|) ^ 2
  else 0

def minDistSq (a1 a2 : CollAnalysis) : ℚ :=
  axisGapSq a1 a2 0 + axisGapSq a1 a2 1 + axisGapSq a1 a2 2

/-- Per-axis contribution to `max_distance`. -/
def axisMaxSq (a1 a2 : CollAnalysis) (i : Fin 3) : ℚ :=
  (max |boundMax a1 i - boundMin a2 i| |boundMax a2 i - boundMin a1 i|) ^ 2

def maxDistSq (a1 a2 : CollAnalysis) : ℚ :=
  axisMaxSq a1 a2 0 + axisMaxSq a1 a2 1 + axisMaxSq a1 a2 2

def refDistSq (p q : Vec3) : ℚ :=
  (p.x - q.x) ^ 2 + (p.y - q.y) ^ 2 + (p.z - q.z) ^ 2

def refPointDists (a1 a2 : CollAnalysis) : List RefDist :=
  a1.key_reference_points.flatMap (fun r1 =>
    (a2.key_reference_points.filter (fun r2 => r1.ifc_category == r2.ifc_category)).map
      (fun r2 => (⟨r1.ifc_category, r1.name, r2.name, refDistSq r1.location r2.location⟩ : RefDist)))

def msgIssueCenter : String := "Distance importante entre les centres"

def msgIssueHeight : String := "Difference importante en hauteur (axe Z)"

def alignIssues (a1 a2 : CollAnalysis) : List String :=
  (if 100 ^ 2 < centerDistSq a1 a2 then [msgIssueCenter] else []) ++
    (if 50 < (axisDistances a1 a2).z then [msgIssueHeight] else [])

/-- Embedding of `CollAligner._calculate_collections_distance`. -/
def calcCollectionsDistance (a1 a2 : CollAnalysis) : DistAnalysis :=
  { center_distance_sq := centerDistSq a1 a2
    min_distance_sq := minDistSq a1 a2
    max_distance_sq := maxDistSq a1 a2
    axis_distances := axisDistances a1 a2
    alignment_issues := alignIssues a1 a2
    reference_point_distances := refPointDists a1 a2 }

def msgRecCenter : String := "Alignement des centres"

def msgRecZ : String := "Alignement vertical"

def msgRecX : String := "Alignement X"

def msgRecY : String := "Alignement Y"

def msgWellAligned : String := "Les collections semblent bien alignees"

/-- Embedding of `CollAligner._generate_alignment_recommendations` (the
interpolated numeric values of the Python message strings are dropped). -/
def generateAlignmentRecommendations (d : DistAnalysis) : List String :=
  let recs :=
    (if 100 ^ 2 < d.center_distance_sq then [msgRecCenter] else []) ++
      (if 50 < d.axis_distances.z then [msgRecZ] else []) ++
        (if 50 < d.axis_distances.x then [msgRecX] else []) ++
          (if 50 < d.axis_distances.y then [msgRecY] else [])
  if recs = [] then [msgWellAligned] else recs

/-- Result record of `analyze_collections_distance`: the Python error dict
(`success: False`, error message, empty analysis fields) is the `err`
constructor, the success dict is `ok`. -/
inductive ACDResult where
  | err (error : String)
  | ok (analysis1 analysis2 : CollAnalysis) (distance : DistAnalysis)
      (recommendations : List String)

def ACDResult.success : ACDResult → Bool
  | .err _ => false
  | .ok _ _ _ _ => true

/-- Embedding of `CollAligner.analyze_collections_distance`. -/
def analyzeCollectionsDistance (s : Scene) (n1 n2 : String) : ACDResult :=
  match findColl s.colls n1 with
  | none => .err ("Collection " ++ n1 ++ " non trouvee")
  | some c1 =>
    match findColl s.colls n2 with
    | none => .err ("Collection " ++ n2 ++ " non trouvee")
    | some c2 =>
      let a1 := analyzePositions s.objs c1 "Collection 1"
      let a2 := analyzePositions s.objs c2 "Collection 2"
      let d := calcCollectionsDistance a1 a2
      .ok a1 a2 d (generateAlignmentRecommendations d)

/-- Minimum of a nonempty list of rationals (`0` on the empty list, which no
claim uses): the claim-side reading of the running minimum. -/
def qListMin : List ℚ → ℚ
  | [] => 0
  | a :: t => t.foldl min a

def qListMax : List ℚ → ℚ
  | [] => 0
  | a :: t => t.foldl max a

/-- Claim-side per-axis bounding-box minimum of a collection: minimum of the
axis values of the objects gathered by the recursive walk. -/
def boxMinQ (store : List PObj) (c : CollT) (i : Fin 3) : ℚ :=
  qListMin (axisVals (walkObjs store c) i)

def boxMaxQ (store : List PObj) (c : CollT) (i : Fin 3) : ℚ :=
  qListMax (axisVals (walkObjs store c) i)

/-- Claim-side centroid: per-axis midpoint of the minimum and maximum object
locations gathered by the recursive walk. -/
def specCentroid (store : List PObj) (c : CollT) (i : Fin 3) : ℚ :=
  (boxMinQ store c i + boxMaxQ store c i) / 2

/-- Claim-side axis separation test of claim C2: the boxes do not overlap on
axis `i`. -/
def specSeparated (store : List PObj) (c1 c2 : CollT) (i : Fin 3) : Prop :=
  boxMaxQ store c1 i < boxMinQ store c2 i ∨ boxMaxQ store c2 i < boxMinQ store c1 i

instance (store : List PObj) (c1 c2 : CollT) (i : Fin 3) :
    Decidable (specSeparated store c1 c2 i) := by
  unfold specSeparated
  infer_instance

/-- Claim-side per-axis squared gap of claim C2. -/
def specGapSq (store : List PObj) (c1 c2 : CollT) (i : Fin 3) : ℚ :=
  if specSeparated store c1 c2 i then
    (min |boxMaxQ store c1 i - boxMinQ store c2 i| |boxMaxQ store c2 i - boxMinQ store c1 i|) ^ 2
  else 0

/-- Claim-side per-axis squared maximum corner difference of claim C2. -/
def specMaxSq (store : List PObj) (c1 c2 : CollT) (i : Fin 3) : ℚ :=
  (max |boxMaxQ store c1 i - boxMinQ store c2 i| |boxMaxQ store c2 i - boxMinQ store c1 i|) ^ 2

/-- Reference point of the precise alignment analysis. -/
structure RefPoint where
  name : String
  specific_name : String
  location : Vec3
  ifc_category : String
deriving DecidableEq

def mkRefPoint (cat : String) (o : PObj) : RefPoint :=
  ⟨o.name, extract_specific_name o.name, o.location, cat⟩

/-- Embedding of `find_reference_points` in
`_analyze_precise_reference_points`: the `EMPTY` objects of the recursive
walk whose IFC category equals the requested one, in walk order. -/
def refPoints (store : List PObj) (c : CollT) (cat : String) : List RefPoint :=
  ((walkObjs store c).filter
      (fun o => o.otype == "EMPTY" && extract_ifc_category o.name == some cat)).map
    (mkRefPoint cat)

/-- Stable insertion into a sorted list: an element is placed before the
first element it compares `le` to, so that ties keep their original order. -/
def insertLe (le : α → α → Bool) (a : α) : List α → List α
  | [] => [a]
  | b :: t => if le a b then a :: b :: t else b :: insertLe le a t

/-- Stable sort, modelling Python's stable `list.sort(key=...)`. -/
def pySort (le : α → α → Bool) (l : List α) : List α :=
  l.foldr (insertLe le) []

def zLe (a b : RefPoint) : Bool :=
  decide (a.location.z ≤ b.location.z)

/-- Entry of `exact_matches` in `_calculate_precise_displacements`;
`distance` is the exact `|z₁ - z₂|`. -/
structure MatchRec where
  name : String
  point1 : RefPoint
  point2 : RefPoint
  distance : ℚ
deriving DecidableEq

def distLe (a b : MatchRec) : Bool :=
  decide (a.distance ≤ b.distance)

/-- Python `dict` assignment `d[k] = v` on an insertion-ordered association
list: overwrite in place if the key is present, else append. -/
def dictInsert (d : List (String × RefPoint)) (k : String) (v : RefPoint) :
    List (String × RefPoint) :=
  if d.any (fun kv => kv.1 == k) then
    d.map (fun kv => if kv.1 == k then (kv.1, v) else kv)
  else
    d ++ [(k, v)]

/-- The Python dict comprehension keyed by `specific_name`. -/
def buildDict (pts : List RefPoint) : List (String × RefPoint) :=
  pts.foldl (fun d p => dictInsert d p.specific_name p) []

def dictGet (d : List (String × RefPoint)) (k : String) : Option RefPoint :=
  (d.find? (fun kv => kv.1 == k)).map Prod.snd

/-- The unsorted `exact_matches` list: iterate the first dict in insertion
order, pairing with the same key in the second dict when present. -/
def exactMatches0 (pts1 pts2 : List RefPoint) : List MatchRec :=
  (buildDict pts1).filterMap (fun kv =>
    (dictGet (buildDict pts2) kv.1).map (fun p2 =>
      (⟨kv.1, kv.2, p2, |kv.2.location.z - p2.location.z|⟩ : MatchRec)))

/-- `exact_matches` sorted by ascending `distance`. -/
def exactMatches (pts1 pts2 : List RefPoint) : List MatchRec :=
  pySort distLe (exactMatches0 pts1 pts2)

/-- `recommended_displacement`: difference of the first (smallest-distance)
match, or the zero vector when there is no match. -/
def recommendedDisplacement (pts1 pts2 : List RefPoint) : Vec3 :=
  match exactMatches pts1 pts2 with
  | [] => ⟨0, 0, 0⟩
  | m :: _ =>
    ⟨m.point1.location.x - m.point2.location.x, m.point1.location.y - m.point2.location.y,
      m.point1.location.z - m.point2.location.z⟩

/-- Result of `_calculate_precise_displacements`. -/
structure AlignData where
  exact_matches : List MatchRec
  displacements_by_axis : Fin 3 → List (String × ℚ)
  recommended_displacement : Vec3
  primary_reference : Option MatchRec

/-- Embedding of `CollAligner._calculate_precise_displacements`. -/
def calcPreciseDisplacements (pts1 pts2 : List RefPoint) : AlignData :=
  { exact_matches := exactMatches pts1 pts2
    displacements_by_axis := fun i =>
      (exactMatches pts1 pts2).map (fun m =>
        (m.name, m.point1.location.nth i - m.point2.location.nth i))
    recommended_displacement := recommendedDisplacement pts1 pts2
    primary_reference := (exactMatches pts1 pts2).head? }

def msgNoMatches : String := "Aucune correspondance exacte trouvee"

def msgPrimary : String := "Point de reference principal"

def msgPrimaryDist : String := "Distance entre les points correspondants"

def msgDispX : String := "Deplacement X"

def msgDispY : String := "Deplacement Y"

def msgDispZ : String := "Deplacement Z"

def msgIncoherent : String := "Incoherence detectee"

def msgCoherent : String := "Alignement coherent entre tous les points de reference"

/-- Spread between the largest and the smallest value of a list (`0` for the
empty and the singleton list). -/
def zSpread (l : List ℚ) : ℚ :=
  qListMax l - qListMin l

/-- Embedding of `CollAligner._generate_precise_recommendations` (again with
the interpolated numbers dropped from the message strings). -/
def generatePreciseRecommendations (ad : AlignData) : List String :=
  if ad.exact_matches = [] then [msgNoMatches]
  else
    (match ad.primary_reference with
      | some _ => [msgPrimary, msgPrimaryDist]
      | none => []) ++
      (if 1 < |ad.recommended_displacement.x| then [msgDispX] else []) ++
        (if 1 < |ad.recommended_displacement.y| then [msgDispY] else []) ++
          (if 1 < |ad.recommended_displacement.z| then [msgDispZ] else []) ++
            (if 1 < (ad.exact_matches.map MatchRec.distance).length then
              (if 5 < zSpread (ad.exact_matches.map MatchRec.distance) then [msgIncoherent]
               else [msgCoherent])
             else [])

/-- Success payload of `analyze_precise_alignment`; the Python error dicts
(`success: False`) are the `Except.error` side of the embedding. -/
structure PreciseResult where
  points1 : List RefPoint
  points2 : List RefPoint
  alignment : AlignData
  recommendations : List String

/-- The success payload built after both reference-point lists were found
nonempty: both lists sorted by elevation, the displacement analysis on the
sorted lists, and its recommendations. -/
def mkPreciseResult (s : Scene) (c1 c2 : CollT) (cat : String) : PreciseResult :=
  ⟨pySort zLe (refPoints s.objs c1 cat), pySort zLe (refPoints s.objs c2 cat),
    calcPreciseDisplacements (pySort zLe (refPoints s.objs c1 cat))
      (pySort zLe (refPoints s.objs c2 cat)),
    generatePreciseRecommendations
      (calcPreciseDisplacements (pySort zLe (refPoints s.objs c1 cat))
        (pySort zLe (refPoints s.objs c2 cat)))⟩

/-- Embedding of `CollAligner.analyze_precise_alignment` composed with
`_analyze_precise_reference_points`: resolve both collections, gather the
reference points, fail when either list is empty, sort both by elevation and
run the displacement calculation. -/
def analyzePreciseAlignment (s : Scene) (n1 n2 cat : String) : Except String PreciseResult :=
  match findColl s.colls n1 with
  | none => .error ("Collection " ++ n1 ++ " non trouvee")
  | some c1 =>
    match findColl s.colls n2 with
    | none => .error ("Collection " ++ n2 ++ " non trouvee")
    | some c2 =>
      if refPoints s.objs c1 cat = [] then
        .error ("Aucun point de reference trouve dans " ++ c1.name)
      else if refPoints s.objs c2 cat = [] then
        .error ("Aucun point de reference trouve dans " ++ c2.name)
      else
        .ok (mkPreciseResult s c1 c2 cat)

/-- Store update for one visited object reference: `obj.location += d`. -/
def updateLoc (objs : List PObj) (n : String) (d : Vec3) : List PObj :=
  objs.map (fun o => if o.name == n then (⟨o.name, o.otype, o.location.add d⟩ : PObj) else o)

/-- Embedding of `move_recursive`: every object reference of the collection
tree is visited in pre-order and the displacement is added to the referenced
store object each time it is visited. -/
def moveRecursive (objs : List PObj) (c : CollT) (d : Vec3) : List PObj :=
  (walkNames c).foldl (fun os nm => updateLoc os nm d) objs

/-- Embedding of `CollAligner.apply_precise_alignment`: run the precise
analysis, re-resolve collection 2, and move it by the recommended
displacement. The returned scene carries the updated object store. -/
def applyPreciseAlignment (s : Scene) (n1 n2 cat : String) : Except String Scene :=
  match analyzePreciseAlignment s n1 n2 cat with
  | .error e => .error e
  | .ok r =>
    match findColl s.colls n2 with
    | none => .error ("Collection " ++ n2 ++ " non trouvee")
    | some c2 =>
      .ok ⟨moveRecursive s.objs c2 r.alignment.recommended_displacement, s.colls⟩

/-- Storey-name cleanup shared by `sq_extractor.py` and `sq_import.py`:
`.replace('IfcBuildingStorey/', '').replace('/STR', '').replace('/INT', '')`. -/
def cleanStoreyName (n : String) : String :=
  pyReplace (pyReplace (pyReplace n "IfcBuildingStorey/" "") "/STR" "") "/INT" ""

/-- One exported element record, standing for both the `ifc_element` row and
the `index.json` entry written for an object (they receive the same
`glb_path`; the `global_id`, property and timestamp columns are not modelled,
no claim mentions them). -/
structure ExportRecord where
  name : String
  storey : String
  otype : String
  discipline : String
  glb_path : String
deriving DecidableEq

def CollTs.toList : CollTs → List CollT
  | .nil => []
  | .cons c cs => c :: CollTs.toList cs

/-- The batch glb path written for a storey:
`<glbDir>/<discipline>_<storey with spaces replaced>.glb`. -/
def batchGlbPath (glbDir discipline storey : String) : String :=
  glbDir ++ "/" ++ discipline ++ "_" ++ pyReplace storey " " "_" ++ ".glb"

/-- One iteration of the per-storey batch loop of `sq_extractor.py`: skip the
batch when it has no mesh objects, otherwise attempt the glTF export
(`exportOk` tells whether `bpy.ops.export_scene.gltf` succeeds for a path; on
failure the Python sets `glb_path = ''` and still indexes the batch), then
append one record per mesh object. -/
def exportStep (store : List PObj) (discipline glbDir : String) (exportOk : String → Bool)
    (acc : List String × List ExportRecord) (storeyColl : CollT) :
    List String × List ExportRecord :=
  let storey := cleanStoreyName storeyColl.name
  let objs := (walkObjs store storeyColl).filter (fun o => o.otype == "MESH")
  if objs = [] then acc
  else
    let path0 := batchGlbPath glbDir discipline storey
    let written := if exportOk path0 then acc.1 ++ [path0] else acc.1
    let path := if exportOk path0 then path0 else ""
    (written,
      acc.2 ++ objs.map (fun o => (⟨o.name, storey, o.otype, discipline, path⟩ : ExportRecord)))

/-- Embedding of the export loop of `sq_extractor.py` for one extracted
collection: iterate over the children named `IfcBuildingStorey...`, and
return the list of glb files written together with all element records. -/
def runExport (store : List PObj) (coll : CollT) (discipline glbDir : String)
    (exportOk : String → Bool) : List String × List ExportRecord :=
  ((coll.children.toList).filter (fun ch => pyStartsWith ch.name "IfcBuildingStorey")).foldl
    (exportStep store discipline glbDir exportOk) ([], [])

/-- One entry of `index.json` as read back by `sq_import.py` (the
`properties` map is not modelled, no claim mentions it). -/
structure IndexItem where
  name : String
  storey : String
  otype : String
  discipline : String
  glb_path : String
  global_id : String
deriving DecidableEq

/-- Batch key of the importer: `(discipline, storey, glb_path)`. -/
def itemKey (it : IndexItem) : String × String × String :=
  (it.discipline, it.storey, it.glb_path)

/-- The importer's filter: skip an entry when a filter is set and is not a
substring of the corresponding field (Python `FILTER and FILTER not in x`). -/
def keepItem (storeyFilter disciplineFilter : Option String) (it : IndexItem) : Bool :=
  (match storeyFilter with
    | none => true
    | some f => strContains f it.storey) &&
  (match disciplineFilter with
    | none => true
    | some f => strContains f it.discipline)

/-- Appending one kept entry to the `batch_map` dict: extend the group of its
key if present, else append a new singleton group. -/
def addToBatch (m : List ((String × String × String) × List IndexItem)) (it : IndexItem) :
    List ((String × String × String) × List IndexItem) :=
  if m.any (fun kv => kv.1 == itemKey it) then
    m.map (fun kv => if kv.1 == itemKey it then (kv.1, kv.2 ++ [it]) else kv)
  else
    m ++ [(itemKey it, [it])]

/-- Embedding of the `batch_map` grouping loop of `sq_import.py`. -/
def batchMap (storeyFilter disciplineFilter : Option String) (index : List IndexItem) :
    List ((String × String × String) × List IndexItem) :=
  (index.filter (keepItem storeyFilter disciplineFilter)).foldl addToBatch []

/-- The host-collection name the importer creates for a batch key:
`<building>/<discipline>/<cleaned storey>`. -/
def importCollName (building : String) (k : String × String × String) : String :=
  building ++ "/" ++ k.1 ++ "/" ++ cleanStoreyName k.2.1

/-- The polling loop of `CollectionSelector.select_collection_complete`,
modelled on the sequence of values `len(bpy.context.selected_objects)` takes
at each poll: the result is the number of `time.sleep(0.5)` calls performed.
Each iteration first polls and breaks when the expected count is reached,
otherwise sleeps once; the fuel is the `range(20)` bound. -/
def syncSleepsAux (expected : Nat) (sel : Nat → Nat) : Nat → Nat → Nat
  | 0, _ => 0
  | fuel + 1, i => if expected ≤ sel i then 0 else syncSleepsAux expected sel fuel (i + 1) + 1

def syncSleeps (expected : Nat) (sel : Nat → Nat) : Nat :=
  syncSleepsAux expected sel 20 0

lemma syncSleepsAux_le (e : Nat) (sel : Nat → Nat) :
    ∀ fuel i, syncSleepsAux e sel fuel i ≤ fuel := by
  intro fuel
  induction fuel with
  | zero => intro i; simp [syncSleepsAux]
  | succ n ih =>
    intro i
    simp only [syncSleepsAux]
    split
    · omega
    · have := ih (i + 1)
      omega

lemma syncSleepsAux_poll_lt (e : Nat) (sel : Nat → Nat) :
    ∀ fuel i j, j < syncSleepsAux e sel fuel i → sel (i + j) < e := by
  intro fuel
  induction fuel with
  | zero => intro i j h; simp [syncSleepsAux] at h
  | succ n ih =>
    intro i j h
    simp only [syncSleepsAux] at h
    by_cases hc : e ≤ sel i
    · rw [if_pos hc] at h; omega
    · rw [if_neg hc] at h
      cases j with
      | zero => simpa using Nat.lt_of_not_le hc
      | succ k =>
        have := ih (i + 1) k (by omega)
        have harr : i + (k + 1) = i + 1 + k := by omega
        rw [harr]
        exact this

lemma syncSleepsAux_exit (e : Nat) (sel : Nat → Nat) :
    ∀ fuel i, syncSleepsAux e sel fuel i < fuel →
      e ≤ sel (i + syncSleepsAux e sel fuel i) := by
  intro fuel
  induction fuel with
  | zero => intro i h; omega
  | succ n ih =>
    intro i h
    simp only [syncSleepsAux] at h ⊢
    by_cases hc : e ≤ sel i
    · rw [if_pos hc]
      simpa using hc
    · rw [if_neg hc] at h ⊢
      have := ih (i + 1) (by omega)
      have harr : i + (syncSleepsAux e sel n (i + 1) + 1) = i + 1 + syncSleepsAux e sel n (i + 1) := by
        omega
      rw [harr]
      exact this

/-- Claim C8: the selection-synchronization loop of
`select_collection_complete` performs at most 20 polling iterations of one
`time.sleep(0.5)` each (at most 10 seconds of waiting), every poll before the
exit sees fewer selected objects than expected, and whenever the loop stops
before exhausting its 20 iterations the exiting poll saw at least the
expected count — so it exits as soon as the count is reached and never loops
beyond the bound. -/
theorem claim_C8 (expected : Nat) (sel : Nat → Nat) :
    syncSleeps expected sel ≤ 20 ∧
    (syncSleeps expected sel : ℚ) * (1 / 2) ≤ 10 ∧
    (∀ j, j < syncSleeps expected sel → sel j < expected) ∧
    (syncSleeps expected sel < 20 → expected ≤ sel (syncSleeps expected sel)) := by
  refine ⟨syncSleepsAux_le expected sel 20 0, ?_, ?_, ?_⟩
  · have h := syncSleepsAux_le expected sel 20 0
    have hq : ((syncSleeps expected sel : ℚ)) ≤ 20 := by exact_mod_cast h
    linarith
  · intro j hj
    have := syncSleepsAux_poll_lt expected sel 20 0 j hj
    simpa using this
  · intro h
    have := syncSleepsAux_exit expected sel 20 0 h
    simpa using this

lemma intercalate_cons_two (sep a b : List Char) (t : List (List Char)) :
    sep.intercalate (a :: b :: t) = a ++ sep ++ sep.intercalate (b :: t) := by
  simp [List.intercalate, List.intersperse_cons_cons, List.append_assoc]

lemma mem_intercalate_chunk (sep : List Char) :
    ∀ (ls : List (List Char)) (c : List Char), c ∈ ls → c <:+: sep.intercalate ls := by
  intro ls
  induction ls with
  | nil => intro c hc; simp at hc
  | cons a t ih =>
    intro c hc
    rcases List.mem_cons.mp hc with hca | hct
    · subst hca
      cases t with
      | nil => exact ⟨[], [], by simp [List.intercalate]⟩
      | cons b t2 => exact ⟨[], sep ++ sep.intercalate (b :: t2), by
          simp [intercalate_cons_two, List.append_assoc]⟩
    · cases t with
      | nil => simp at hct
      | cons b t2 =>
        obtain ⟨s, t', hst⟩ := ih c hct
        exact ⟨a ++ sep ++ s, t', by rw [intercalate_cons_two]; rw [← hst]; simp [List.append_assoc]⟩

lemma mem_splitOn_chunk {x : Char} {xs chunk : List Char} (h : chunk ∈ xs.splitOn x) :
    chunk <:+: xs := by
  have h2 := List.intercalate_splitOn xs x
  rw [← h2]
  exact mem_intercalate_chunk [x] (xs.splitOn x) chunk h

lemma extract_eq_firstIfcPart (name : String) :
    extract_ifc_category name = firstIfcPart name := by
  unfold extract_ifc_category firstIfcPart
  by_cases h : strContains "Ifc" name = true
  · rw [if_pos h]
  · rw [if_neg h]
    cases hf : (name.toList.splitOn '/').find? (fun part => "Ifc".toList.isPrefixOf part) with
    | none => simp
    | some p =>
      exfalso
      have hp : ("Ifc".toList.isPrefixOf p) = true := List.find?_some hf
      have hmem : p ∈ name.toList.splitOn '/' := List.mem_of_find?_eq_some hf
      have hpre : "Ifc".toList <+: p := List.isPrefixOf_iff_prefix.mp hp
      obtain ⟨r, hr⟩ := hpre
      obtain ⟨s, t', hst⟩ := mem_splitOn_chunk hmem
      have hinf : "Ifc".toList <:+: name.toList := by
        refine ⟨s, r ++ t', ?_⟩
        rw [← hst, ← hr]
        simp [List.append_assoc]
      apply h
      unfold strContains
      simpa using hinf

/-- Claim C9: the name categorization helpers are pure functions of the input
string (equal inputs give equal outputs), and `_extract_ifc_category` returns
exactly the first `'/'`-separated part of the name that starts with `"Ifc"`,
returning `none` when no part does — in particular when `"Ifc"` occurs only
inside a part. -/
theorem claim_C9 (s t : String) (h : s = t) :
    extract_ifc_category s = extract_ifc_category t ∧
    extract_specific_name s = extract_specific_name t ∧
    categorize_element s = categorize_element t ∧
    extract_ifc_category s = firstIfcPart s := by
  subst h
  exact ⟨rfl, rfl, rfl, extract_eq_firstIfcPart s⟩

/-- Witness for claim C9 at concrete names, including one where `"Ifc"`
occurs only inside a part. -/
theorem claim_C9_witness :
    ("foo/xIfcy" : String) = "foo/xIfcy" ∧
    extract_ifc_category "foo/xIfcy" = firstIfcPart "foo/xIfcy" ∧
    firstIfcPart "foo/xIfcy" = none ∧
    firstIfcPart "IfcBuildingStorey/NIVEAU 1.001" = some "IfcBuildingStorey" :=
  ⟨rfl, (claim_C9 "foo/xIfcy" "foo/xIfcy" rfl).2.2.2, by decide, by decide⟩

lemma lt100_sqrt_iff (q : ℚ) : (100 : ℝ) < Real.sqrt (q : ℝ) ↔ (100 : ℚ) ^ 2 < q := by
  rw [Real.lt_sqrt (by norm_num : (0 : ℝ) ≤ 100)]
  rw [show ((100 : ℝ) ^ 2) = (((100 : ℚ) ^ 2 : ℚ) : ℝ) by norm_num]
  exact Rat.cast_lt

lemma mem_ite_singleton (c : Prop) [Decidable c] (a b : String) :
    a ∈ (if c then [b] else []) ↔ c ∧ a = b := by
  split <;> simp_all

lemma zSpread_singleton (a : ℚ) : zSpread [a] = 0 := by
  simp [zSpread, qListMin, qListMax]

lemma mem_genAlign_center (d : DistAnalysis) :
    msgRecCenter ∈ generateAlignmentRecommendations d ↔ 100 ^ 2 < d.center_distance_sq := by
  unfold generateAlignmentRecommendations
  by_cases h1 : 100 ^ 2 < d.center_distance_sq <;>
    by_cases h2 : 50 < d.axis_distances.z <;>
      by_cases h3 : 50 < d.axis_distances.x <;>
        by_cases h4 : 50 < d.axis_distances.y <;>
          simp [h1, h2, h3, h4, msgRecCenter, msgRecZ, msgRecX, msgRecY, msgWellAligned]

lemma mem_genAlign_axis (d : DistAnalysis) :
    (msgRecZ ∈ generateAlignmentRecommendations d ↔ 50 < d.axis_distances.z) ∧
    (msgRecX ∈ generateAlignmentRecommendations d ↔ 50 < d.axis_distances.x) ∧
    (msgRecY ∈ generateAlignmentRecommendations d ↔ 50 < d.axis_distances.y) := by
  unfold generateAlignmentRecommendations
  by_cases h1 : 100 ^ 2 < d.center_distance_sq <;>
    by_cases h2 : 50 < d.axis_distances.z <;>
      by_cases h3 : 50 < d.axis_distances.x <;>
        by_cases h4 : 50 < d.axis_distances.y <;>
          simp [h1, h2, h3, h4, msgRecCenter, msgRecZ, msgRecX, msgRecY, msgWellAligned]

lemma mem_genAlign_well (d : DistAnalysis) :
    msgWellAligned ∈ generateAlignmentRecommendations d ↔
      ¬(100 ^ 2 < d.center_distance_sq) ∧ ¬(50 < d.axis_distances.z) ∧
        ¬(50 < d.axis_distances.x) ∧ ¬(50 < d.axis_distances.y) := by
  unfold generateAlignmentRecommendations
  by_cases h1 : 100 ^ 2 < d.center_distance_sq <;>
    by_cases h2 : 50 < d.axis_distances.z <;>
      by_cases h3 : 50 < d.axis_distances.x <;>
        by_cases h4 : 50 < d.axis_distances.y <;>
          simp [h1, h2, h3, h4, msgRecCenter, msgRecZ, msgRecX, msgRecY, msgWellAligned]

lemma calcPrecise_matches (pts1 pts2 : List RefPoint) :
    (calcPreciseDisplacements pts1 pts2).exact_matches = exactMatches pts1 pts2 := rfl

lemma calcPrecise_disp (pts1 pts2 : List RefPoint) :
    (calcPreciseDisplacements pts1 pts2).recommended_displacement =
      recommendedDisplacement pts1 pts2 := rfl

lemma mem_genPrec_disp (pts1 pts2 : List RefPoint) :
    (msgDispX ∈ generatePreciseRecommendations (calcPreciseDisplacements pts1 pts2) ↔
      1 < |(calcPreciseDisplacements pts1 pts2).recommended_displacement.x|) ∧
    (msgDispY ∈ generatePreciseRecommendations (calcPreciseDisplacements pts1 pts2) ↔
      1 < |(calcPreciseDisplacements pts1 pts2).recommended_displacement.y|) ∧
    (msgDispZ ∈ generatePreciseRecommendations (calcPreciseDisplacements pts1 pts2) ↔
      1 < |(calcPreciseDisplacements pts1 pts2).recommended_displacement.z|) := by
  unfold generatePreciseRecommendations
  rw [calcPrecise_disp]
  cases hms : exactMatches pts1 pts2 with
  | nil =>
    rw [show (calcPreciseDisplacements pts1 pts2).exact_matches = exactMatches pts1 pts2 from rfl,
      hms]
    rw [recommendedDisplacement, hms]
    simp [msgNoMatches, msgDispX, msgDispY, msgDispZ]
  | cons m t =>
    rw [show (calcPreciseDisplacements pts1 pts2).exact_matches = exactMatches pts1 pts2 from rfl,
      hms]
    rw [show (calcPreciseDisplacements pts1 pts2).primary_reference =
      (exactMatches pts1 pts2).head? from rfl, hms]
    simp only [List.head?_cons, reduceCtorEq, if_neg, List.mem_append, mem_ite_singleton]
    refine ⟨?_, ?_, ?_⟩ <;>
      · by_cases hx : 1 < |(recommendedDisplacement pts1 pts2).x| <;>
          by_cases hy : 1 < |(recommendedDisplacement pts1 pts2).y| <;>
            by_cases hz : 1 < |(recommendedDisplacement pts1 pts2).z| <;>
              by_cases hlen : 0 < t.length <;>
                by_cases hsp : 5 < zSpread (m.distance :: t.map MatchRec.distance) <;>
                  simp [hx, hy, hz, hlen, hsp, msgPrimary, msgPrimaryDist, msgDispX, msgDispY,
                    msgDispZ, msgIncoherent, msgCoherent, msgNoMatches]

lemma mem_genPrec_incoherent (pts1 pts2 : List RefPoint) :
    msgIncoherent ∈ generatePreciseRecommendations (calcPreciseDisplacements pts1 pts2) ↔
      5 < zSpread ((calcPreciseDisplacements pts1 pts2).exact_matches.map MatchRec.distance) := by
  unfold generatePreciseRecommendations
  rw [calcPrecise_matches]
  cases hms : exactMatches pts1 pts2 with
  | nil => simp [msgNoMatches, msgIncoherent, zSpread, qListMin, qListMax]
  | cons m t =>
    rw [show (calcPreciseDisplacements pts1 pts2).primary_reference =
      (exactMatches pts1 pts2).head? from rfl, hms]
    cases t with
    | nil =>
      simp [mem_ite_singleton, zSpread_singleton, msgPrimary, msgPrimaryDist, msgDispX,
        msgDispY, msgDispZ, msgIncoherent, msgCoherent]
    | cons m2 t2 =>
      by_cases hsp : 5 < zSpread (m.distance :: m2.distance :: t2.map MatchRec.distance) <;>
        simp [hsp, mem_ite_singleton, msgPrimary, msgPrimaryDist, msgDispX, msgDispY, msgDispZ,
          msgIncoherent, msgCoherent]

/-- Claim C4: the textual recommendations are gated exactly by the fixed
thresholds. In `_generate_alignment_recommendations` the center message is
emitted iff the center distance (the square root of the stored square)
exceeds 100, each per-axis message iff that axis distance exceeds 50, and the
well-aligned message exactly when no threshold is exceeded. In
`_generate_precise_recommendations` each per-axis displacement message is
emitted iff the displacement's absolute value exceeds 1.0, and the
incoherence warning iff the spread between the largest and smallest matched
Z-distances exceeds 5.0. -/
theorem claim_C4 (a1 a2 : CollAnalysis) (pts1 pts2 : List RefPoint) :
    (msgRecCenter ∈ generateAlignmentRecommendations (calcCollectionsDistance a1 a2) ↔
      (100 : ℝ) < Real.sqrt ((calcCollectionsDistance a1 a2).center_distance_sq : ℝ)) ∧
    (msgRecZ ∈ generateAlignmentRecommendations (calcCollectionsDistance a1 a2) ↔
      50 < (calcCollectionsDistance a1 a2).axis_distances.z) ∧
    (msgRecX ∈ generateAlignmentRecommendations (calcCollectionsDistance a1 a2) ↔
      50 < (calcCollectionsDistance a1 a2).axis_distances.x) ∧
    (msgRecY ∈ generateAlignmentRecommendations (calcCollectionsDistance a1 a2) ↔
      50 < (calcCollectionsDistance a1 a2).axis_distances.y) ∧
    (msgWellAligned ∈ generateAlignmentRecommendations (calcCollectionsDistance a1 a2) ↔
      ¬((100 : ℝ) < Real.sqrt ((calcCollectionsDistance a1 a2).center_distance_sq : ℝ)) ∧
        ¬(50 < (calcCollectionsDistance a1 a2).axis_distances.z) ∧
          ¬(50 < (calcCollectionsDistance a1 a2).axis_distances.x) ∧
            ¬(50 < (calcCollectionsDistance a1 a2).axis_distances.y)) ∧
    (msgDispX ∈ generatePreciseRecommendations (calcPreciseDisplacements pts1 pts2) ↔
      1 < |(calcPreciseDisplacements pts1 pts2).recommended_displacement.x|) ∧
    (msgDispY ∈ generatePreciseRecommendations (calcPreciseDisplacements pts1 pts2) ↔
      1 < |(calcPreciseDisplacements pts1 pts2).recommended_displacement.y|) ∧
    (msgDispZ ∈ generatePreciseRecommendations (calcPreciseDisplacements pts1 pts2) ↔
      1 < |(calcPreciseDisplacements pts1 pts2).recommended_displacement.z|) ∧
    (msgIncoherent ∈ generatePreciseRecommendations (calcPreciseDisplacements pts1 pts2) ↔
      5 < zSpread ((calcPreciseDisplacements pts1 pts2).exact_matches.map MatchRec.distance)) := by
  refine ⟨?_, (mem_genAlign_axis _).1, (mem_genAlign_axis _).2.1, (mem_genAlign_axis _).2.2, ?_,
    (mem_genPrec_disp pts1 pts2).1, (mem_genPrec_disp pts1 pts2).2.1,
    (mem_genPrec_disp pts1 pts2).2.2, mem_genPrec_incoherent pts1 pts2⟩
  · rw [mem_genAlign_center, lt100_sqrt_iff]
  · rw [mem_genAlign_well, lt100_sqrt_iff]

/-- Scene with two resolvable collections that contain no reference point of
the requested category. -/
def sceneNoRefs : Scene :=
  ⟨[], [.node "AA" [] .nil, .node "BB" [] .nil]⟩

/-- Counterexample to claim C5 as stated: `analyze_precise_alignment` also
returns a `success = False` record when both collections resolve but one of
them holds no reference point of the requested category, so collection-not-
found is not the only failure mode of the alignment analyses. -/
theorem claim_C5_counterexample :
    (findColl sceneNoRefs.colls "AA").isSome = true ∧
    (findColl sceneNoRefs.colls "BB").isSome = true ∧
    (analyzePreciseAlignment sceneNoRefs "AA" "BB" "IfcBuildingStorey").isOk = false := by
  decide

/-- Claim C5 as amended: `analyze_collections_distance` fails exactly when a
collection cannot be resolved; `analyze_precise_alignment` fails exactly when
a collection cannot be resolved or when a resolved collection holds no
reference point of the requested category. -/
theorem claim_C5 (s : Scene) (n1 n2 cat : String) :
    ((analyzeCollectionsDistance s n1 n2).success = false ↔
      findColl s.colls n1 = none ∨ findColl s.colls n2 = none) ∧
    ((analyzePreciseAlignment s n1 n2 cat).isOk = false ↔
      findColl s.colls n1 = none ∨ findColl s.colls n2 = none ∨
        (∃ c1 c2, findColl s.colls n1 = some c1 ∧ findColl s.colls n2 = some c2 ∧
          (refPoints s.objs c1 cat = [] ∨ refPoints s.objs c2 cat = []))) := by
  constructor
  · unfold analyzeCollectionsDistance
    cases h1 : findColl s.colls n1 <;> cases h2 : findColl s.colls n2 <;>
      simp [ACDResult.success]
  · unfold analyzePreciseAlignment
    cases h1 : findColl s.colls n1 with
    | none => simp [Except.isOk, Except.toBool]
    | some c1 =>
      cases h2 : findColl s.colls n2 with
      | none => simp [Except.isOk, Except.toBool]
      | some c2 =>
        by_cases hp1 : refPoints s.objs c1 cat = []
        · simp [hp1, Except.isOk, Except.toBool]
        · by_cases hp2 : refPoints s.objs c2 cat = []
          · simp [hp1, hp2, Except.isOk, Except.toBool]
          · simp [hp1, hp2, Except.isOk, Except.toBool]

/-- The per-record invariant of claim C6: the record points at the batch file
of its own storey and discipline, and that file was written. -/
def recordOk (glbDir discipline : String) (written : List String) (r : ExportRecord) : Prop :=
  r.glb_path = batchGlbPath glbDir discipline r.storey ∧
    r.discipline = discipline ∧ r.glb_path ∈ written

lemma exportStep_inv (store : List PObj) (discipline glbDir : String)
    (exportOk : String → Bool) (hok : ∀ p, exportOk p = true)
    (acc : List String × List ExportRecord) (ch : CollT)
    (hacc : ∀ r ∈ acc.2, recordOk glbDir discipline acc.1 r) :
    ∀ r ∈ (exportStep store discipline glbDir exportOk acc ch).2,
      recordOk glbDir discipline (exportStep store discipline glbDir exportOk acc ch).1 r := by
  unfold exportStep
  by_cases hobjs : (walkObjs store ch).filter (fun o => o.otype == "MESH") = []
  · simpa [hobjs] using hacc
  · rw [if_neg hobjs]
    simp only [hok, if_pos]
    intro r hr
    rcases List.mem_append.mp hr with hold | hnew
    · obtain ⟨h1, h2, h3⟩ := hacc r hold
      exact ⟨h1, h2, List.mem_append_left _ h3⟩
    · obtain ⟨o, _, ho⟩ := List.mem_map.mp hnew
      subst ho
      refine ⟨rfl, rfl, ?_⟩
      simp

lemma exportFold_inv (store : List PObj) (discipline glbDir : String)
    (exportOk : String → Bool) (hok : ∀ p, exportOk p = true) :
    ∀ (l : List CollT) (acc : List String × List ExportRecord),
      (∀ r ∈ acc.2, recordOk glbDir discipline acc.1 r) →
      ∀ r ∈ (l.foldl (exportStep store discipline glbDir exportOk) acc).2,
        recordOk glbDir discipline (l.foldl (exportStep store discipline glbDir exportOk) acc).1
          r := by
  intro l
  induction l with
  | nil => intro acc hacc; simpa using hacc
  | cons ch t ih =>
    intro acc hacc
    rw [List.foldl_cons]
    exact ih _ (exportStep_inv store discipline glbDir exportOk hok acc ch hacc)

/-- Claim C6 as amended: provided every batch glTF export succeeds, every
element record produced by the export run (each `ifc_element` row and each
`index.json` entry alike) carries the `glb_path`
`<glbDir>/<discipline>_<storey>.glb` of its own (discipline, storey) batch,
and that file is among the glb files the run wrote. When an export fails the
Python stores `glb_path = ''` instead, which references no written file (see
the counterexample). -/
theorem claim_C6 (store : List PObj) (coll : CollT) (discipline glbDir : String)
    (exportOk : String → Bool) (hok : ∀ p, exportOk p = true) :
    ∀ r ∈ (runExport store coll discipline glbDir exportOk).2,
      r.glb_path = batchGlbPath glbDir discipline r.storey ∧
        r.discipline = discipline ∧
          r.glb_path ∈ (runExport store coll discipline glbDir exportOk).1 := by
  intro r hr
  exact exportFold_inv store discipline glbDir exportOk hok _ ([], []) (by simp) r hr

/-- Store and collection of a one-batch export run. -/
def expStoreW : List PObj := [⟨"IfcWall/W", "MESH", ⟨0, 0, 0⟩⟩]

def expCollW : CollT :=
  .node "IfcProject/527508/STR" []
    (.cons (.node "IfcBuildingStorey/NIVEAU 3/STR" ["IfcWall/W"] .nil) .nil)

/-- Witness for claim C6: a concrete one-batch run with a succeeding export,
whose single record points at the written batch file. -/
theorem claim_C6_witness :
    (∀ p, ((fun _ => true) : String → Bool) p = true) ∧
    (⟨"IfcWall/W", "NIVEAU 3", "MESH", "STR", "glb/STR_NIVEAU_3.glb"⟩ : ExportRecord) ∈
      (runExport expStoreW expCollW "STR" "glb" (fun _ => true)).2 ∧
    ((⟨"IfcWall/W", "NIVEAU 3", "MESH", "STR", "glb/STR_NIVEAU_3.glb"⟩ : ExportRecord).glb_path =
        batchGlbPath "glb" "STR" "NIVEAU 3" ∧
      (⟨"IfcWall/W", "NIVEAU 3", "MESH", "STR", "glb/STR_NIVEAU_3.glb"⟩ :
          ExportRecord).discipline = "STR" ∧
        (⟨"IfcWall/W", "NIVEAU 3", "MESH", "STR", "glb/STR_NIVEAU_3.glb"⟩ :
            ExportRecord).glb_path ∈
          (runExport expStoreW expCollW "STR" "glb" (fun _ => true)).1) :=
  ⟨fun _ => rfl, by decide,
    claim_C6 expStoreW expCollW "STR" "glb" (fun _ => true) (fun _ => rfl) _ (by decide)⟩

/-- Counterexample to claim C6 as stated: when the glTF export of a batch
fails, the run still produces the batch's element records, with
`glb_path = ''` — a path that references no existing glb file (the run wrote
none at all). -/
theorem claim_C6_counterexample :
    (runExport expStoreW expCollW "STR" "glb" (fun _ => false)).2 =
      [⟨"IfcWall/W", "NIVEAU 3", "MESH", "STR", ""⟩] ∧
    (runExport expStoreW expCollW "STR" "glb" (fun _ => false)).1 = [] ∧
    (⟨"IfcWall/W", "NIVEAU 3", "MESH", "STR", ""⟩ : ExportRecord).glb_path ∉
      (runExport expStoreW expCollW "STR" "glb" (fun _ => false)).1 := by
  decide

lemma addToBatch_keys (m : List ((String × String × String) × List IndexItem)) (it : IndexItem) :
    (addToBatch m it).map Prod.fst =
      if m.any (fun kv => kv.1 == itemKey it) then m.map Prod.fst
      else m.map Prod.fst ++ [itemKey it] := by
  unfold addToBatch
  split
  · rw [List.map_map]
    apply List.map_congr_left
    intro kv _
    by_cases hk : kv.1 = itemKey it <;> simp [hk]
  · simp

lemma addToBatch_nodupKeys (m : List ((String × String × String) × List IndexItem))
    (it : IndexItem) (h : (m.map Prod.fst).Nodup) :
    ((addToBatch m it).map Prod.fst).Nodup := by
  rw [addToBatch_keys]
  split
  · exact h
  · rename_i hc
    have hnot : itemKey it ∉ m.map Prod.fst := by
      intro hmem
      obtain ⟨kv, hkv, hke⟩ := List.mem_map.mp hmem
      exact hc (List.any_eq_true.mpr ⟨kv, hkv, by simp [hke]⟩)
    simp [List.nodup_append, h, hnot]

lemma modifyGroup_flat (it : IndexItem) (k : String × String × String) :
    ∀ (m : List ((String × String × String) × List IndexItem)),
      k ∈ m.map Prod.fst → (m.map Prod.fst).Nodup →
      ((m.map (fun kv => if kv.1 == k then (kv.1, kv.2 ++ [it]) else kv)).flatMap
          Prod.snd).Perm (m.flatMap Prod.snd ++ [it]) := by
  intro m
  induction m with
  | nil => intro hk _; simp at hk
  | cons kv rest ih =>
    intro hk hnd
    rw [List.map_cons] at hk hnd
    have hnd1 := (List.nodup_cons.mp hnd).1
    have hnd2 := (List.nodup_cons.mp hnd).2
    rw [List.map_cons, List.flatMap_cons, List.flatMap_cons]
    by_cases hkv : (kv.1 == k) = true
    · have hke : kv.1 = k := by simpa using hkv
      have hknot : k ∉ rest.map Prod.fst := by rw [← hke]; exact hnd1
      have hrest : rest.map (fun kv2 => if kv2.1 == k then (kv2.1, kv2.2 ++ [it]) else kv2) =
          rest := by
        conv_rhs => rw [← List.map_id rest]
        apply List.map_congr_left
        intro kv2 hkv2
        have hb : ¬((kv2.1 == k) = true) := by
          intro hb
          exact hknot (List.mem_map.mpr ⟨kv2, hkv2, by simpa using hb⟩)
        simp [hb]
      rw [if_pos hkv, hrest]
      have hgoal : (kv.2 ++ [it]) ++ rest.flatMap Prod.snd =
          kv.2 ++ ([it] ++ rest.flatMap Prod.snd) := by
        simp [List.append_assoc]
      rw [hgoal, List.append_assoc]
      exact List.Perm.append_left kv.2 List.perm_append_comm
    · have hkrest : k ∈ rest.map Prod.fst := by
        rcases List.mem_cons.mp hk with hh | ht
        · exact absurd (by simp [hh]) hkv
        · exact ht
      rw [if_neg hkv, List.append_assoc]
      exact List.Perm.append_left kv.2 (ih hkrest hnd2)

lemma addToBatch_flat (m : List ((String × String × String) × List IndexItem)) (it : IndexItem)
    (h : (m.map Prod.fst).Nodup) :
    ((addToBatch m it).flatMap Prod.snd).Perm (m.flatMap Prod.snd ++ [it]) := by
  unfold addToBatch
  by_cases hc : m.any (fun kv => kv.1 == itemKey it) = true
  · rw [if_pos hc]
    have hk : itemKey it ∈ m.map Prod.fst := by
      obtain ⟨kv, hkv, hke⟩ := List.any_eq_true.mp hc
      exact List.mem_map.mpr ⟨kv, hkv, by simpa using hke⟩
    exact modifyGroup_flat it (itemKey it) m hk h
  · rw [if_neg hc]
    simp

lemma addToBatch_keycons (m : List ((String × String × String) × List IndexItem))
    (it : IndexItem) (h : ∀ kv ∈ m, ∀ x ∈ kv.2, itemKey x = kv.1) :
    ∀ kv ∈ addToBatch m it, ∀ x ∈ kv.2, itemKey x = kv.1 := by
  unfold addToBatch
  split
  · intro kv hkv x hx
    obtain ⟨kv0, hkv0, heq⟩ := List.mem_map.mp hkv
    by_cases hk : (kv0.1 == itemKey it) = true
    · rw [if_pos hk] at heq
      subst heq
      rcases List.mem_append.mp hx with hxold | hxnew
      · exact h kv0 hkv0 x hxold
      · have : x = it := by simpa using hxnew
        subst this
        simpa using (by simpa using hk : kv0.1 = itemKey x).symm
    · rw [if_neg hk] at heq
      subst heq
      exact h kv0 hkv0 x hx
  · intro kv hkv x hx
    rcases List.mem_append.mp hkv with hold | hnew
    · exact h kv hold x hx
    · have : kv = (itemKey it, [it]) := by simpa using hnew
      subst this
      have : x = it := by simpa using hx
      subst this
      rfl

lemma batchFold_nodupKeys (l : List IndexItem) :
    ∀ (m : List ((String × String × String) × List IndexItem)),
      (m.map Prod.fst).Nodup → ((l.foldl addToBatch m).map Prod.fst).Nodup := by
  induction l with
  | nil => intro m h; simpa using h
  | cons it t ih =>
    intro m h
    rw [List.foldl_cons]
    exact ih _ (addToBatch_nodupKeys m it h)

lemma batchFold_flat (l : List IndexItem) :
    ∀ (m : List ((String × String × String) × List IndexItem)),
      (m.map Prod.fst).Nodup →
      ((l.foldl addToBatch m).flatMap Prod.snd).Perm (m.flatMap Prod.snd ++ l) := by
  induction l with
  | nil => intro m _; simp
  | cons it t ih =>
    intro m h
    rw [List.foldl_cons]
    have h1 := ih (addToBatch m it) (addToBatch_nodupKeys m it h)
    have h2 : ((addToBatch m it).flatMap Prod.snd ++ t).Perm
        ((m.flatMap Prod.snd ++ [it]) ++ t) :=
      (addToBatch_flat m it h).append_right t
    have h3 : (m.flatMap Prod.snd ++ [it]) ++ t = m.flatMap Prod.snd ++ (it :: t) := by
      simp [List.append_assoc]
    exact (h1.trans h2).trans (by rw [h3])

lemma batchFold_keycons (l : List IndexItem) :
    ∀ (m : List ((String × String × String) × List IndexItem)),
      (∀ kv ∈ m, ∀ x ∈ kv.2, itemKey x = kv.1) →
      ∀ kv ∈ l.foldl addToBatch m, ∀ x ∈ kv.2, itemKey x = kv.1 := by
  induction l with
  | nil => intro m h; simpa using h
  | cons it t ih =>
    intro m h
    rw [List.foldl_cons]
    exact ih _ (addToBatch_keycons m it h)

/-- Claim C7: the importer keeps exactly the index entries whose storey and
discipline contain the respective filters as substrings (no filtering for an
absent filter); the `batch_map` grouping partitions the kept entries — their
concatenation is a permutation of the kept list, batch keys are distinct, and
every entry sits in the batch of its own `(discipline, storey, glb_path)`
key; and each re-created collection is named
`<building>/<discipline>/<storey>` with the `IfcBuildingStorey/` prefix and
`/STR`, `/INT` suffixes stripped from the storey. -/
theorem claim_C7 (sf df : Option String) (index : List IndexItem) (building : String) :
    ((batchMap sf df index).flatMap Prod.snd).Perm (index.filter (keepItem sf df)) ∧
    ((batchMap sf df index).map Prod.fst).Nodup ∧
    (∀ kv ∈ batchMap sf df index, ∀ x ∈ kv.2, itemKey x = kv.1) ∧
    (∀ it : IndexItem, keepItem sf df it = true ↔
      (∀ f, sf = some f → f.toList <:+: it.storey.toList) ∧
        (∀ f, df = some f → f.toList <:+: it.discipline.toList)) ∧
    (∀ it : IndexItem, importCollName building (itemKey it) =
      building ++ "/" ++ it.discipline ++ "/" ++ cleanStoreyName it.storey) := by
  refine ⟨?_, ?_, ?_, ?_, fun it => rfl⟩
  · have := batchFold_flat (index.filter (keepItem sf df)) [] (by simp)
    simpa [batchMap] using this
  · exact batchFold_nodupKeys (index.filter (keepItem sf df)) [] (by simp)
  · exact batchFold_keycons (index.filter (keepItem sf df)) [] (by simp)
  · intro it
    unfold keepItem
    cases sf <;> cases df <;> simp [strContains]

lemma foldl_optStep (f : ℚ → ℚ → ℚ) :
    ∀ (t : List ℚ) (a : ℚ),
      t.foldl (fun m v => some (match m with | none => v | some q => f q v)) (some a) =
        some (t.foldl f a) := by
  intro t
  induction t with
  | nil => intro a; rfl
  | cons v t2 ih => intro a; rw [List.foldl_cons, List.foldl_cons]; exact ih (f a v)

lemma optFold_min_eq (l : List ℚ) (h : l ≠ []) : optFold min l = some (qListMin l) := by
  cases l with
  | nil => exact absurd rfl h
  | cons a t =>
    unfold optFold qListMin
    rw [List.foldl_cons]
    exact foldl_optStep min t a

lemma optFold_max_eq (l : List ℚ) (h : l ≠ []) : optFold max l = some (qListMax l) := by
  cases l with
  | nil => exact absurd rfl h
  | cons a t =>
    unfold optFold qListMax
    rw [List.foldl_cons]
    exact foldl_optStep max t a

lemma analyzePositions_posMin (store : List PObj) (c : CollT) (label : String) (i : Fin 3) :
    (analyzePositions store c label).posMin i = optFold min (axisVals (walkObjs store c) i) := rfl

lemma analyzePositions_posMax (store : List PObj) (c : CollT) (label : String) (i : Fin 3) :
    (analyzePositions store c label).posMax i = optFold max (axisVals (walkObjs store c) i) := rfl

lemma analyzePositions_center_def (store : List PObj) (c : CollT) (label : String) (i : Fin 3) :
    (analyzePositions store c label).center i =
      if 0 < (walkObjs store c).length then
        ((optFold min (axisVals (walkObjs store c) i)).getD 0 +
          (optFold max (axisVals (walkObjs store c) i)).getD 0) / 2
      else 0 := rfl

lemma axisVals_ne_nil (store : List PObj) (c : CollT) (i : Fin 3)
    (h : walkObjs store c ≠ []) : axisVals (walkObjs store c) i ≠ [] := by
  simp [axisVals, h]

lemma analyzePositions_center (store : List PObj) (c : CollT) (label : String)
    (h : walkObjs store c ≠ []) (i : Fin 3) :
    (analyzePositions store c label).center i = specCentroid store c i := by
  rw [analyzePositions_center_def, if_pos (List.length_pos.mpr h)]
  rw [optFold_min_eq _ (axisVals_ne_nil store c i h), optFold_max_eq _ (axisVals_ne_nil store c i h)]
  rfl

lemma analyzePositions_boundMin (store : List PObj) (c : CollT) (label : String)
    (h : walkObjs store c ≠ []) (i : Fin 3) :
    boundMin (analyzePositions store c label) i = boxMinQ store c i := by
  unfold boundMin
  rw [analyzePositions_posMin, optFold_min_eq _ (axisVals_ne_nil store c i h)]
  rfl

lemma analyzePositions_boundMax (store : List PObj) (c : CollT) (label : String)
    (h : walkObjs store c ≠ []) (i : Fin 3) :
    boundMax (analyzePositions store c label) i = boxMaxQ store c i := by
  unfold boundMax
  rw [analyzePositions_posMax, optFold_max_eq _ (axisVals_ne_nil store c i h)]
  rfl

lemma analyzeCD_ok_elim (s : Scene) (n1 n2 : String) (c1 c2 : CollT)
    (a1 a2 : CollAnalysis) (d : DistAnalysis) (recs : List String)
    (h1 : findColl s.colls n1 = some c1) (h2 : findColl s.colls n2 = some c2)
    (hok : analyzeCollectionsDistance s n1 n2 = .ok a1 a2 d recs) :
    a1 = analyzePositions s.objs c1 "Collection 1" ∧
      a2 = analyzePositions s.objs c2 "Collection 2" ∧
        d = calcCollectionsDistance (analyzePositions s.objs c1 "Collection 1")
          (analyzePositions s.objs c2 "Collection 2") := by
  unfold analyzeCollectionsDistance at hok
  rw [h1, h2] at hok
  simp only [ACDResult.ok.injEq] at hok
  exact ⟨hok.1.symm, hok.2.1.symm, hok.2.2.1.symm⟩

/-- Claim C1: in a successful run of `analyze_collections_distance` over two
collections with at least one object each, `center_distance` (the square root
of the stored square) is the Euclidean distance between the two centroids,
`axis_distances` is the per-axis absolute difference of the centroids, and
each collection's centroid is, per axis, the midpoint `(min + max) / 2` of
the minimum and maximum object locations gathered by the recursive walk over
the collection and all its sub-collections. -/
theorem claim_C1 (s : Scene) (n1 n2 : String) (c1 c2 : CollT)
    (a1 a2 : CollAnalysis) (d : DistAnalysis) (recs : List String)
    (h1 : findColl s.colls n1 = some c1) (h2 : findColl s.colls n2 = some c2)
    (hne1 : walkObjs s.objs c1 ≠ []) (hne2 : walkObjs s.objs c2 ≠ [])
    (hok : analyzeCollectionsDistance s n1 n2 = .ok a1 a2 d recs) :
    Real.sqrt (d.center_distance_sq : ℝ) =
      Real.sqrt (((specCentroid s.objs c1 0 - specCentroid s.objs c2 0 : ℚ) : ℝ) ^ 2 +
        ((specCentroid s.objs c1 1 - specCentroid s.objs c2 1 : ℚ) : ℝ) ^ 2 +
          ((specCentroid s.objs c1 2 - specCentroid s.objs c2 2 : ℚ) : ℝ) ^ 2) ∧
    (∀ i : Fin 3,
      d.axis_distances.nth i = |specCentroid s.objs c1 i - specCentroid s.objs c2 i|) ∧
    (∀ i : Fin 3, a1.center i = specCentroid s.objs c1 i) ∧
    (∀ i : Fin 3, a2.center i = specCentroid s.objs c2 i) ∧
    (∀ i : Fin 3, specCentroid s.objs c1 i =
      (qListMin (axisVals (walkObjs s.objs c1) i) + qListMax (axisVals (walkObjs s.objs c1) i)) /
        2) := by
  obtain ⟨ha1, ha2, hd⟩ := analyzeCD_ok_elim s n1 n2 c1 c2 a1 a2 d recs h1 h2 hok
  have hc1 := analyzePositions_center s.objs c1 "Collection 1" hne1
  have hc2 := analyzePositions_center s.objs c2 "Collection 2" hne2
  refine ⟨?_, ?_, ?_, ?_, fun i => rfl⟩
  · have hval : (d.center_distance_sq : ℝ) =
        ((specCentroid s.objs c1 0 - specCentroid s.objs c2 0 : ℚ) : ℝ) ^ 2 +
          ((specCentroid s.objs c1 1 - specCentroid s.objs c2 1 : ℚ) : ℝ) ^ 2 +
            ((specCentroid s.objs c1 2 - specCentroid s.objs c2 2 : ℚ) : ℝ) ^ 2 := by
      rw [hd]
      show ((centerDistSq _ _ : ℚ) : ℝ) = _
      unfold centerDistSq
      rw [hc1 0, hc1 1, hc1 2, hc2 0, hc2 1, hc2 2]
      push_cast
      ring
    rw [hval]
  · intro i
    rw [hd]
    show (axisDistances _ _).nth i = _
    unfold axisDistances
    fin_cases i <;>
      simp [Vec3.nth, hc1 0, hc1 1, hc1 2, hc2 0, hc2 1, hc2 2]
  · intro i; rw [ha1]; exact hc1 i
  · intro i; rw [ha2]; exact hc2 i

/-- Claim C2: in the same setting, `min_distance` is the square root of the
sum, over exactly the axes where the two bounding boxes do not overlap, of
the squared per-axis gap `min(|max1 - min2|, |max2 - min1|)` — in particular
it is `0` when the boxes overlap on every axis — and `max_distance` is the
square root of the sum over all three axes of the squared per-axis maximum
corner difference `max(|max1 - min2|, |max2 - min1|)`. -/
theorem claim_C2 (s : Scene) (n1 n2 : String) (c1 c2 : CollT)
    (a1 a2 : CollAnalysis) (d : DistAnalysis) (recs : List String)
    (h1 : findColl s.colls n1 = some c1) (h2 : findColl s.colls n2 = some c2)
    (hne1 : walkObjs s.objs c1 ≠ []) (hne2 : walkObjs s.objs c2 ≠ [])
    (hok : analyzeCollectionsDistance s n1 n2 = .ok a1 a2 d recs) :
    Real.sqrt (d.min_distance_sq : ℝ) =
      Real.sqrt ((specGapSq s.objs c1 c2 0 + specGapSq s.objs c1 c2 1 +
        specGapSq s.objs c1 c2 2 : ℚ) : ℝ) ∧
    ((∀ i : Fin 3, ¬ specSeparated s.objs c1 c2 i) →
      Real.sqrt (d.min_distance_sq : ℝ) = 0) ∧
    Real.sqrt (d.max_distance_sq : ℝ) =
      Real.sqrt ((specMaxSq s.objs c1 c2 0 + specMaxSq s.objs c1 c2 1 +
        specMaxSq s.objs c1 c2 2 : ℚ) : ℝ) := by
  obtain ⟨_, _, hd⟩ := analyzeCD_ok_elim s n1 n2 c1 c2 a1 a2 d recs h1 h2 hok
  have hbmin1 := analyzePositions_boundMin s.objs c1 "Collection 1" hne1
  have hbmax1 := analyzePositions_boundMax s.objs c1 "Collection 1" hne1
  have hbmin2 := analyzePositions_boundMin s.objs c2 "Collection 2" hne2
  have hbmax2 := analyzePositions_boundMax s.objs c2 "Collection 2" hne2
  have hgap : ∀ i : Fin 3,
      axisGapSq (analyzePositions s.objs c1 "Collection 1")
        (analyzePositions s.objs c2 "Collection 2") i = specGapSq s.objs c1 c2 i := by
    intro i
    unfold axisGapSq specGapSq specSeparated
    rw [hbmin1 i, hbmax1 i, hbmin2 i, hbmax2 i]
  have hmaxsq : ∀ i : Fin 3,
      axisMaxSq (analyzePositions s.objs c1 "Collection 1")
        (analyzePositions s.objs c2 "Collection 2") i = specMaxSq s.objs c1 c2 i := by
    intro i
    unfold axisMaxSq specMaxSq
    rw [hbmin1 i, hbmax1 i, hbmin2 i, hbmax2 i]
  have hmin : d.min_distance_sq =
      specGapSq s.objs c1 c2 0 + specGapSq s.objs c1 c2 1 + specGapSq s.objs c1 c2 2 := by
    rw [hd]
    show minDistSq _ _ = _
    unfold minDistSq
    rw [hgap 0, hgap 1, hgap 2]
  have hmax : d.max_distance_sq =
      specMaxSq s.objs c1 c2 0 + specMaxSq s.objs c1 c2 1 + specMaxSq s.objs c1 c2 2 := by
    rw [hd]
    show maxDistSq _ _ = _
    unfold maxDistSq
    rw [hmaxsq 0, hmaxsq 1, hmaxsq 2]
  refine ⟨by rw [hmin], ?_, by rw [hmax]⟩
  intro hover
  have hz : ∀ i : Fin 3, specGapSq s.objs c1 c2 i = 0 := by
    intro i
    unfold specGapSq
    rw [if_neg (hover i)]
  rw [hmin, hz 0, hz 1, hz 2]
  norm_num

/-- Concrete two-collection scene used by the C1 and C2 witnesses. -/
def wScene : Scene :=
  ⟨[⟨"IfcWall/A", "MESH", ⟨0, 0, 0⟩⟩, ⟨"IfcWall/B", "MESH", ⟨3, 4, 0⟩⟩],
    [.node "WA" ["IfcWall/A"] .nil, .node "WB" ["IfcWall/B"] .nil]⟩

def wCA : CollT := .node "WA" ["IfcWall/A"] .nil

def wCB : CollT := .node "WB" ["IfcWall/B"] .nil

def wA1 : CollAnalysis := analyzePositions wScene.objs wCA "Collection 1"

def wA2 : CollAnalysis := analyzePositions wScene.objs wCB "Collection 2"

def wD : DistAnalysis := calcCollectionsDistance wA1 wA2

def wRecs : List String := generateAlignmentRecommendations wD

/-- Witness for claim C1 on the concrete scene `wScene`. -/
theorem claim_C1_witness :
    walkObjs wScene.objs wCA ≠ [] ∧ walkObjs wScene.objs wCB ≠ [] ∧
    (Real.sqrt (wD.center_distance_sq : ℝ) =
      Real.sqrt (((specCentroid wScene.objs wCA 0 - specCentroid wScene.objs wCB 0 : ℚ) : ℝ) ^ 2 +
        ((specCentroid wScene.objs wCA 1 - specCentroid wScene.objs wCB 1 : ℚ) : ℝ) ^ 2 +
          ((specCentroid wScene.objs wCA 2 - specCentroid wScene.objs wCB 2 : ℚ) : ℝ) ^ 2) ∧
    (∀ i : Fin 3,
      wD.axis_distances.nth i =
        |specCentroid wScene.objs wCA i - specCentroid wScene.objs wCB i|) ∧
    (∀ i : Fin 3, wA1.center i = specCentroid wScene.objs wCA i) ∧
    (∀ i : Fin 3, wA2.center i = specCentroid wScene.objs wCB i) ∧
    (∀ i : Fin 3, specCentroid wScene.objs wCA i =
      (qListMin (axisVals (walkObjs wScene.objs wCA) i) +
        qListMax (axisVals (walkObjs wScene.objs wCA) i)) / 2)) :=
  ⟨by decide, by decide,
    claim_C1 wScene "WA" "WB" wCA wCB wA1 wA2 wD wRecs rfl rfl (by decide) (by decide) rfl⟩

lemma insertLe_perm (le : α → α → Bool) (a : α) :
    ∀ l : List α, (insertLe le a l).Perm (a :: l) := by
  intro l
  induction l with
  | nil => exact List.Perm.refl _
  | cons b t ih =>
    unfold insertLe
    split
    · exact List.Perm.refl _
    · exact (ih.cons b).trans (List.Perm.swap a b t)

lemma pySort_perm (le : α → α → Bool) (l : List α) : (pySort le l).Perm l := by
  induction l with
  | nil => exact List.Perm.refl _
  | cons a t ih =>
    have : pySort le (a :: t) = insertLe le a (pySort le t) := rfl
    rw [this]
    exact (insertLe_perm le a (pySort le t)).trans (ih.cons a)

lemma mem_pySort (le : α → α → Bool) (l : List α) (x : α) : x ∈ pySort le l ↔ x ∈ l :=
  (pySort_perm le l).mem_iff

lemma insertLe_pairwise (le : α → α → Bool)
    (htot : ∀ a b, le a b = true ∨ le b a = true)
    (htrans : ∀ a b c, le a b = true → le b c = true → le a c = true) (a : α) :
    ∀ l : List α, l.Pairwise (fun x y => le x y = true) →
      (insertLe le a l).Pairwise (fun x y => le x y = true) := by
  intro l
  induction l with
  | nil => intro _; simp [insertLe]
  | cons b t ih =>
    intro hp
    have hb := List.pairwise_cons.mp hp
    unfold insertLe
    split
    · rename_i hab
      refine List.pairwise_cons.mpr ⟨?_, hp⟩
      intro y hy
      rcases List.mem_cons.mp hy with hyb | hyt
      · subst hyb; exact hab
      · exact htrans a b y hab (hb.1 y hyt)
    · rename_i hab
      have hba : le b a = true := by
        rcases htot a b with h | h
        · exact absurd h hab
        · exact h
      refine List.pairwise_cons.mpr ⟨?_, ih hb.2⟩
      intro y hy
      rcases List.mem_cons.mp ((insertLe_perm le a t).mem_iff.mp hy) with hya | hyt
      · subst hya; exact hba
      · exact hb.1 y hyt

lemma pySort_pairwise (le : α → α → Bool)
    (htot : ∀ a b, le a b = true ∨ le b a = true)
    (htrans : ∀ a b c, le a b = true → le b c = true → le a c = true) (l : List α) :
    (pySort le l).Pairwise (fun x y => le x y = true) := by
  induction l with
  | nil => simp [pySort]
  | cons a t ih =>
    have : pySort le (a :: t) = insertLe le a (pySort le t) := rfl
    rw [this]
    exact insertLe_pairwise le htot htrans a (pySort le t) ih

lemma zLe_total (a b : RefPoint) : zLe a b = true ∨ zLe b a = true := by
  unfold zLe
  rcases le_total a.location.z b.location.z with h | h
  · exact Or.inl (by simpa using h)
  · exact Or.inr (by simpa using h)

lemma zLe_trans (a b c : RefPoint) (h1 : zLe a b = true) (h2 : zLe b c = true) :
    zLe a c = true := by
  unfold zLe at h1 h2 ⊢
  simp only [decide_eq_true_eq] at h1 h2 ⊢
  exact le_trans h1 h2

lemma distLe_total (a b : MatchRec) : distLe a b = true ∨ distLe b a = true := by
  unfold distLe
  rcases le_total a.distance b.distance with h | h
  · exact Or.inl (by simpa using h)
  · exact Or.inr (by simpa using h)

lemma distLe_trans (a b c : MatchRec) (h1 : distLe a b = true) (h2 : distLe b c = true) :
    distLe a c = true := by
  unfold distLe at h1 h2 ⊢
  simp only [decide_eq_true_eq] at h1 h2 ⊢
  exact le_trans h1 h2

lemma buildDict_aux :
    ∀ (pts : List RefPoint) (acc : List (String × RefPoint)),
      (pts.map RefPoint.specific_name).Nodup →
      (∀ p ∈ pts, ∀ kv ∈ acc, kv.1 ≠ p.specific_name) →
      pts.foldl (fun d p => dictInsert d p.specific_name p) acc =
        acc ++ pts.map (fun p => (p.specific_name, p)) := by
  intro pts
  induction pts with
  | nil => intro acc _ _; simp
  | cons p t ih =>
    intro acc hnd hfresh
    rw [List.map_cons] at hnd
    have hnd1 := (List.nodup_cons.mp hnd).1
    have hnd2 := (List.nodup_cons.mp hnd).2
    rw [List.foldl_cons]
    have hnotin : ¬(acc.any (fun kv => kv.1 == p.specific_name) = true) := by
      intro h
      obtain ⟨kv, hkv, hb⟩ := List.any_eq_true.mp h
      exact hfresh p (List.mem_cons_self p t) kv hkv (by simpa using hb)
    have hstep : dictInsert acc p.specific_name p = acc ++ [(p.specific_name, p)] := by
      unfold dictInsert
      rw [if_neg hnotin]
    rw [hstep]
    rw [ih (acc ++ [(p.specific_name, p)]) hnd2 ?_]
    · simp [List.append_assoc]
    · intro q hq kv hkv
      rcases List.mem_append.mp hkv with hkold | hknew
      · exact hfresh q (List.mem_cons_of_mem p hq) kv hkold
      · have : kv = (p.specific_name, p) := by simpa using hknew
        subst this
        intro hcontra
        have hc2 : p.specific_name = q.specific_name := hcontra
        exact hnd1 (by rw [hc2]; exact List.mem_map.mpr ⟨q, hq, rfl⟩)

lemma buildDict_eq (pts : List RefPoint) (hnd : (pts.map RefPoint.specific_name).Nodup) :
    buildDict pts = pts.map (fun p => (p.specific_name, p)) := by
  have := buildDict_aux pts [] hnd (by simp)
  simpa [buildDict] using this

lemma dictGet_map (pts : List RefPoint) (k : String) :
    dictGet (pts.map (fun p => (p.specific_name, p))) k =
      pts.find? (fun p => p.specific_name == k) := by
  unfold dictGet
  rw [List.find?_map (fun p => (p.specific_name, p)) pts]
  rw [Option.map_map]
  have : (Prod.snd ∘ fun p : RefPoint => (p.specific_name, p)) = id := rfl
  rw [this, Option.map_id]
  rfl

lemma exactMatches_mem (pts1 pts2 : List RefPoint)
    (hnd1 : (pts1.map RefPoint.specific_name).Nodup)
    (hnd2 : (pts2.map RefPoint.specific_name).Nodup) (p1 p2 : RefPoint) :
    (∃ m ∈ exactMatches pts1 pts2, m.point1 = p1 ∧ m.point2 = p2) ↔
      p1 ∈ pts1 ∧ p2 ∈ pts2 ∧ p1.specific_name = p2.specific_name := by
  have hsort : ∀ m, m ∈ exactMatches pts1 pts2 ↔ m ∈ exactMatches0 pts1 pts2 := fun m =>
    mem_pySort distLe (exactMatches0 pts1 pts2) m
  have hunfold : exactMatches0 pts1 pts2 =
      pts1.filterMap (fun p =>
        (dictGet (buildDict pts2) p.specific_name).map (fun q =>
          (⟨p.specific_name, p, q, |p.location.z - q.location.z|⟩ : MatchRec))) := by
    unfold exactMatches0
    rw [buildDict_eq pts1 hnd1]
    rw [List.filterMap_map _ _ _]
    rfl
  constructor
  · rintro ⟨m, hm, hp1, hp2⟩
    rw [hsort, hunfold] at hm
    obtain ⟨a, ha, hfa⟩ := List.mem_filterMap.mp hm
    obtain ⟨q, hq, hmk⟩ := Option.map_eq_some'.mp hfa
    rw [buildDict_eq pts2 hnd2, dictGet_map] at hq
    have hqmem : q ∈ pts2 := List.mem_of_find?_eq_some hq
    have hqsn : q.specific_name = a.specific_name := by
      have := List.find?_some hq
      simpa using this
    have hap1 : a = p1 := by rw [← hp1, ← hmk]
    have hqp2 : q = p2 := by rw [← hp2, ← hmk]
    subst hap1
    subst hqp2
    exact ⟨ha, hqmem, hqsn.symm⟩
  · rintro ⟨hp1, hp2, hsn⟩
    have hfind : pts2.find? (fun p => p.specific_name == p1.specific_name) = some p2 := by
      have hsome : (pts2.find? (fun p => p.specific_name == p1.specific_name)).isSome :=
        List.find?_isSome.mpr ⟨p2, hp2, by simp [hsn]⟩
      obtain ⟨q, hq⟩ := Option.isSome_iff_exists.mp hsome
      have hqmem : q ∈ pts2 := List.mem_of_find?_eq_some hq
      have hqsn : q.specific_name = p1.specific_name := by
        have := List.find?_some hq
        simpa using this
      have hq2 : q = p2 :=
        List.inj_on_of_nodup_map hnd2 hqmem hp2 (by rw [hqsn, hsn])
      rw [hq2] at hq
      exact hq
    refine ⟨⟨p1.specific_name, p1, p2, |p1.location.z - p2.location.z|⟩, ?_, rfl, rfl⟩
    rw [hsort, hunfold]
    apply List.mem_filterMap.mpr
    refine ⟨p1, hp1, ?_⟩
    rw [buildDict_eq pts2 hnd2, dictGet_map, hfind]
    rfl

lemma refPoints_mem (store : List PObj) (c : CollT) (cat : String) (p : RefPoint) :
    p ∈ refPoints store c cat ↔
      ∃ o ∈ walkObjs store c, o.otype = "EMPTY" ∧ extract_ifc_category o.name = some cat ∧
        p = mkRefPoint cat o := by
  unfold refPoints
  constructor
  · intro hp
    obtain ⟨o, ho, hmk⟩ := List.mem_map.mp hp
    have ho2 := List.mem_filter.mp ho
    have hb := ho2.2
    simp only [Bool.and_eq_true, beq_iff_eq] at hb
    exact ⟨o, ho2.1, hb.1, hb.2, hmk.symm⟩
  · rintro ⟨o, ho, hty, hcat, hmk⟩
    subst hmk
    apply List.mem_map.mpr
    refine ⟨o, ?_, rfl⟩
    apply List.mem_filter.mpr
    exact ⟨ho, by simp [hty, hcat]⟩

lemma analyzePA_ok_elim (s : Scene) (n1 n2 cat : String) (r : PreciseResult)
    (hok : analyzePreciseAlignment s n1 n2 cat = .ok r) :
    ∃ c1 c2, findColl s.colls n1 = some c1 ∧ findColl s.colls n2 = some c2 ∧
      r.points1 = pySort zLe (refPoints s.objs c1 cat) ∧
      r.points2 = pySort zLe (refPoints s.objs c2 cat) ∧
      r.alignment = calcPreciseDisplacements r.points1 r.points2 := by
  unfold analyzePreciseAlignment at hok
  cases h1 : findColl s.colls n1 with
  | none => simp only [h1] at hok; exact absurd hok (by simp)
  | some c1 =>
    simp only [h1] at hok
    cases h2 : findColl s.colls n2 with
    | none => simp only [h2] at hok; exact absurd hok (by simp)
    | some c2 =>
      simp only [h2] at hok
      by_cases hp1 : refPoints s.objs c1 cat = []
      · rw [if_pos hp1] at hok; exact absurd hok (by simp)
      · rw [if_neg hp1] at hok
        by_cases hp2 : refPoints s.objs c2 cat = []
        · rw [if_pos hp2] at hok; exact absurd hok (by simp)
        · rw [if_neg hp2] at hok
          simp only [Except.ok.injEq] at hok
          subst hok
          exact ⟨c1, c2, rfl, rfl, rfl, rfl, rfl⟩

/-- Claim C3 as amended: in a successful precise-alignment analysis the two
reference-point lists are sorted by ascending elevation and consist exactly
of the `EMPTY` objects of the respective collection walk whose IFC category
is the requested one; and — provided the normalized name tokens are distinct
within each collection — two reference points are paired in `exact_matches`
exactly when their normalized tokens are equal. -/
theorem claim_C3 (s : Scene) (n1 n2 cat : String) (r : PreciseResult)
    (hok : analyzePreciseAlignment s n1 n2 cat = .ok r)
    (hnd1 : (r.points1.map RefPoint.specific_name).Nodup)
    (hnd2 : (r.points2.map RefPoint.specific_name).Nodup) :
    r.points1.Pairwise (fun a b => a.location.z ≤ b.location.z) ∧
    r.points2.Pairwise (fun a b => a.location.z ≤ b.location.z) ∧
    (∀ c1 : CollT, findColl s.colls n1 = some c1 →
      ∀ p : RefPoint, p ∈ r.points1 ↔
        ∃ o ∈ walkObjs s.objs c1, o.otype = "EMPTY" ∧
          extract_ifc_category o.name = some cat ∧ p = mkRefPoint cat o) ∧
    (∀ c2 : CollT, findColl s.colls n2 = some c2 →
      ∀ p : RefPoint, p ∈ r.points2 ↔
        ∃ o ∈ walkObjs s.objs c2, o.otype = "EMPTY" ∧
          extract_ifc_category o.name = some cat ∧ p = mkRefPoint cat o) ∧
    (∀ p1 p2 : RefPoint,
      (∃ m ∈ r.alignment.exact_matches, m.point1 = p1 ∧ m.point2 = p2) ↔
        p1 ∈ r.points1 ∧ p2 ∈ r.points2 ∧ p1.specific_name = p2.specific_name) := by
  obtain ⟨c1, c2, h1, h2, hpt1, hpt2, hal⟩ :=
    analyzePA_ok_elim s n1 n2 cat r hok
  have hsorted : ∀ pts : List RefPoint,
      (pySort zLe pts).Pairwise (fun a b => a.location.z ≤ b.location.z) := by
    intro pts
    have := pySort_pairwise zLe zLe_total zLe_trans pts
    exact this.imp (fun h => by simpa [zLe] using h)
  refine ⟨?_, ?_, ?_, ?_, ?_⟩
  · rw [hpt1]; exact hsorted _
  · rw [hpt2]; exact hsorted _
  · intro c1' h1' p
    have hc : c1' = c1 := by rw [h1] at h1'; exact (Option.some.injEq _ _).mp h1'.symm
    subst hc
    rw [hpt1, mem_pySort]
    exact refPoints_mem s.objs c1' cat p
  · intro c2' h2' p
    have hc : c2' = c2 := by rw [h2] at h2'; exact (Option.some.injEq _ _).mp h2'.symm
    subst hc
    rw [hpt2, mem_pySort]
    exact refPoints_mem s.objs c2' cat p
  · intro p1 p2
    rw [hal, calcPrecise_matches]
    exact exactMatches_mem r.points1 r.points2 hnd1 hnd2 p1 p2

/-- Scene whose first collection holds two storey empties with the same
normalized token `A`. -/
def sDup : Scene :=
  ⟨[⟨"IfcBuildingStorey/A.001", "EMPTY", ⟨0, 0, 0⟩⟩,
    ⟨"IfcBuildingStorey/A.002", "EMPTY", ⟨0, 0, 1⟩⟩,
    ⟨"IfcBuildingStorey/A", "EMPTY", ⟨0, 0, 0⟩⟩],
    [.node "D1" ["IfcBuildingStorey/A.001", "IfcBuildingStorey/A.002"] .nil,
      .node "D2" ["IfcBuildingStorey/A"] .nil]⟩

def cD1 : CollT := .node "D1" ["IfcBuildingStorey/A.001", "IfcBuildingStorey/A.002"] .nil

def cD2 : CollT := .node "D2" ["IfcBuildingStorey/A"] .nil

def rDup : PreciseResult := mkPreciseResult sDup cD1 cD2 "IfcBuildingStorey"

def dupP1 : RefPoint := ⟨"IfcBuildingStorey/A.001", "A", ⟨0, 0, 0⟩, "IfcBuildingStorey"⟩

def dupP2 : RefPoint := ⟨"IfcBuildingStorey/A", "A", ⟨0, 0, 0⟩, "IfcBuildingStorey"⟩

/-- Counterexample to claim C3 as stated: with two points of token `A` in
collection 1, the dict built by `_calculate_precise_displacements` keeps only
the last one, so the pair `(A.001, A)` has equal tokens and the requested
category on both sides yet is never matched. -/
theorem claim_C3_counterexample :
    analyzePreciseAlignment sDup "D1" "D2" "IfcBuildingStorey" = .ok rDup ∧
    dupP1 ∈ rDup.points1 ∧ dupP2 ∈ rDup.points2 ∧
    dupP1.specific_name = dupP2.specific_name ∧
    rDup.alignment.exact_matches.all
      (fun m => !(decide (m.point1 = dupP1) && decide (m.point2 = dupP2))) = true :=
  ⟨rfl, by decide, by decide, rfl, by decide⟩

/-- Scene with distinct storey tokens for the C3 witness. -/
def sPrec : Scene :=
  ⟨[⟨"IfcBuildingStorey/N1", "EMPTY", ⟨0, 0, 0⟩⟩,
    ⟨"IfcBuildingStorey/N2", "EMPTY", ⟨0, 0, 3⟩⟩,
    ⟨"IfcBuildingStorey/N1.001", "EMPTY", ⟨1, 0, 1⟩⟩],
    [.node "P1" ["IfcBuildingStorey/N1", "IfcBuildingStorey/N2"] .nil,
      .node "P2" ["IfcBuildingStorey/N1.001"] .nil]⟩

def cP1 : CollT := .node "P1" ["IfcBuildingStorey/N1", "IfcBuildingStorey/N2"] .nil

def cP2 : CollT := .node "P2" ["IfcBuildingStorey/N1.001"] .nil

def rPrec : PreciseResult := mkPreciseResult sPrec cP1 cP2 "IfcBuildingStorey"

/-- Witness for the amended claim C3 on the concrete scene `sPrec`. -/
theorem claim_C3_witness :
    (rPrec.points1.map RefPoint.specific_name).Nodup ∧
    (rPrec.points2.map RefPoint.specific_name).Nodup ∧
    (rPrec.points1.Pairwise (fun a b => a.location.z ≤ b.location.z) ∧
    rPrec.points2.Pairwise (fun a b => a.location.z ≤ b.location.z) ∧
    (∀ c1 : CollT, findColl sPrec.colls "P1" = some c1 →
      ∀ p : RefPoint, p ∈ rPrec.points1 ↔
        ∃ o ∈ walkObjs sPrec.objs c1, o.otype = "EMPTY" ∧
          extract_ifc_category o.name = some "IfcBuildingStorey" ∧
            p = mkRefPoint "IfcBuildingStorey" o) ∧
    (∀ c2 : CollT, findColl sPrec.colls "P2" = some c2 →
      ∀ p : RefPoint, p ∈ rPrec.points2 ↔
        ∃ o ∈ walkObjs sPrec.objs c2, o.otype = "EMPTY" ∧
          extract_ifc_category o.name = some "IfcBuildingStorey" ∧
            p = mkRefPoint "IfcBuildingStorey" o) ∧
    (∀ p1 p2 : RefPoint,
      (∃ m ∈ rPrec.alignment.exact_matches, m.point1 = p1 ∧ m.point2 = p2) ↔
        p1 ∈ rPrec.points1 ∧ p2 ∈ rPrec.points2 ∧
          p1.specific_name = p2.specific_name)) :=
  ⟨by decide, by decide,
    claim_C3 sPrec "P1" "P2" "IfcBuildingStorey" rPrec rfl (by decide) (by decide)⟩

lemma lookupObj_cons (o : PObj) (t : List PObj) (n : String) :
    lookupObj (o :: t) n = if (o.name == n) = true then some o else lookupObj t n := by
  unfold lookupObj
  cases h : (o.name == n) <;> simp [List.find?, h]

lemma lookup_updateLoc_ne (objs : List PObj) (n n' : String) (d : Vec3) (h : n' ≠ n) :
    lookupObj (updateLoc objs n d) n' = lookupObj objs n' := by
  induction objs with
  | nil => rfl
  | cons o t ih =>
    unfold updateLoc
    rw [List.map_cons]
    by_cases hon : (o.name == n) = true
    · have hoe : o.name = n := by simpa using hon
      rw [if_pos hon, lookupObj_cons, lookupObj_cons]
      have hne : ¬((o.name == n') = true) := by
        simp only [beq_iff_eq, hoe]
        exact fun hc => h hc.symm
      rw [if_neg (by simpa using hne), if_neg hne]
      exact ih
    · rw [if_neg hon, lookupObj_cons, lookupObj_cons]
      by_cases hon2 : (o.name == n') = true
      · rw [if_pos hon2, if_pos hon2]
      · rw [if_neg hon2, if_neg hon2]
        exact ih

lemma lookup_updateLoc_eq (objs : List PObj) (n : String) (d : Vec3) :
    lookupObj (updateLoc objs n d) n =
      (lookupObj objs n).map (fun o => (⟨o.name, o.otype, o.location.add d⟩ : PObj)) := by
  induction objs with
  | nil => rfl
  | cons o t ih =>
    unfold updateLoc
    rw [List.map_cons]
    by_cases hon : (o.name == n) = true
    · rw [if_pos hon, lookupObj_cons, lookupObj_cons]
      rw [if_pos hon, if_pos hon]
      rfl
    · rw [if_neg hon, lookupObj_cons, lookupObj_cons]
      rw [if_neg hon, if_neg hon]
      exact ih

lemma lookup_moveFold_notmem (d : Vec3) :
    ∀ (L : List String) (objs : List PObj) (n : String), n ∉ L →
      lookupObj (L.foldl (fun os nm => updateLoc os nm d) objs) n = lookupObj objs n := by
  intro L
  induction L with
  | nil => intro objs n _; rfl
  | cons a t ih =>
    intro objs n hn
    rw [List.foldl_cons]
    have hna : n ≠ a := fun hc => hn (hc ▸ List.mem_cons_self a t)
    have hnt : n ∉ t := fun hc => hn (List.mem_cons_of_mem a hc)
    rw [ih (updateLoc objs a d) n hnt]
    exact lookup_updateLoc_ne objs a n d hna

lemma lookup_moveFold_mem (d : Vec3) :
    ∀ (L : List String) (objs : List PObj) (n : String), L.Nodup → n ∈ L →
      lookupObj (L.foldl (fun os nm => updateLoc os nm d) objs) n =
        (lookupObj objs n).map (fun o => (⟨o.name, o.otype, o.location.add d⟩ : PObj)) := by
  intro L
  induction L with
  | nil => intro objs n _ hn; simp at hn
  | cons a t ih =>
    intro objs n hnd hn
    have hnd1 := (List.nodup_cons.mp hnd).1
    have hnd2 := (List.nodup_cons.mp hnd).2
    rw [List.foldl_cons]
    rcases List.mem_cons.mp hn with hna | hnt
    · subst hna
      rw [lookup_moveFold_notmem d t (updateLoc objs n d) n hnd1]
      exact lookup_updateLoc_eq objs n d
    · have hna : n ≠ a := fun hc => hnd1 (hc ▸ hnt)
      rw [ih (updateLoc objs a d) n hnd2 hnt]
      rw [lookup_updateLoc_ne objs a n d hna]

lemma applyPA_ok_elim (s : Scene) (n1 n2 cat : String) (s2 : Scene)
    (hok : applyPreciseAlignment s n1 n2 cat = .ok s2) :
    ∃ (r : PreciseResult) (c2 : CollT),
      analyzePreciseAlignment s n1 n2 cat = .ok r ∧ findColl s.colls n2 = some c2 ∧
        s2 = ⟨moveRecursive s.objs c2 r.alignment.recommended_displacement, s.colls⟩ := by
  unfold applyPreciseAlignment at hok
  cases han : analyzePreciseAlignment s n1 n2 cat with
  | error e => simp only [han] at hok; exact absurd hok (by simp)
  | ok r =>
    simp only [han] at hok
    cases hf2 : findColl s.colls n2 with
    | none => simp only [hf2] at hok; exact absurd hok (by simp)
    | some c2 =>
      simp only [hf2, Except.ok.injEq] at hok
      exact ⟨r, c2, rfl, rfl, hok.symm⟩

lemma recommendedDisplacement_head (pts1 pts2 : List RefPoint) (m : MatchRec)
    (t : List MatchRec) (hms : exactMatches pts1 pts2 = m :: t) :
    recommendedDisplacement pts1 pts2 =
      ⟨m.point1.location.x - m.point2.location.x, m.point1.location.y - m.point2.location.y,
        m.point1.location.z - m.point2.location.z⟩ := by
  unfold recommendedDisplacement
  rw [hms]

lemma exactMatches_head_min (pts1 pts2 : List RefPoint) (m : MatchRec) (t : List MatchRec)
    (hms : exactMatches pts1 pts2 = m :: t) :
    ∀ m2 ∈ exactMatches pts1 pts2, m.distance ≤ m2.distance := by
  have hp := pySort_pairwise distLe distLe_total distLe_trans (exactMatches0 pts1 pts2)
  have heq : pySort distLe (exactMatches0 pts1 pts2) = exactMatches pts1 pts2 := rfl
  rw [heq, hms] at hp
  intro m2 hm2
  rw [hms] at hm2
  rcases List.mem_cons.mp hm2 with hh | ht
  · subst hh; exact le_refl _
  · have := (List.pairwise_cons.mp hp).1 m2 ht
    simpa [distLe] using this

/-- Claim C10 as amended: in a successful `apply_precise_alignment` run where
no object of collection 2 is linked twice inside collection 2 and the two
collections share no object, the recommended displacement — the coordinate
difference of the exact match with the smallest Z-distance, the analysis's
primary reference — is added to the location of every object of collection 2
(sub-collections included), every object outside collection 2 is untouched
and in particular every object of collection 1 keeps its location. -/
theorem claim_C10 (s : Scene) (n1 n2 cat : String) (s2 : Scene) (r : PreciseResult)
    (c1 c2 : CollT) (m : MatchRec) (t : List MatchRec)
    (hok : applyPreciseAlignment s n1 n2 cat = .ok s2)
    (han : analyzePreciseAlignment s n1 n2 cat = .ok r)
    (h1 : findColl s.colls n1 = some c1) (h2 : findColl s.colls n2 = some c2)
    (hnd : (walkNames c2).Nodup)
    (hdisj : ∀ nm ∈ walkNames c1, nm ∉ walkNames c2)
    (hm : r.alignment.exact_matches = m :: t) :
    (∀ nm ∈ walkNames c2,
      lookupObj s2.objs nm = (lookupObj s.objs nm).map
        (fun o => (⟨o.name, o.otype,
          o.location.add r.alignment.recommended_displacement⟩ : PObj))) ∧
    (∀ nm, nm ∉ walkNames c2 → lookupObj s2.objs nm = lookupObj s.objs nm) ∧
    (∀ nm ∈ walkNames c1, lookupObj s2.objs nm = lookupObj s.objs nm) ∧
    r.alignment.primary_reference = some m ∧
    m ∈ r.alignment.exact_matches ∧
    (∀ m2 ∈ r.alignment.exact_matches, m.distance ≤ m2.distance) ∧
    r.alignment.recommended_displacement =
      ⟨m.point1.location.x - m.point2.location.x, m.point1.location.y - m.point2.location.y,
        m.point1.location.z - m.point2.location.z⟩ := by
  obtain ⟨r', c2', han', hf2', hs2⟩ := applyPA_ok_elim s n1 n2 cat s2 hok
  have hr : r' = r := Except.ok.inj (han'.symm.trans han)
  have hc2x : c2' = c2 := Option.some.inj (hf2'.symm.trans h2)
  rw [hr, hc2x] at hs2
  obtain ⟨c1a, c2a, h1a, h2a, hpt1, hpt2, hal⟩ := analyzePA_ok_elim s n1 n2 cat r han
  have hmatches : r.alignment.exact_matches = exactMatches r.points1 r.points2 := by
    rw [hal, calcPrecise_matches]
  have hdisp : r.alignment.recommended_displacement =
      recommendedDisplacement r.points1 r.points2 := by
    rw [hal, calcPrecise_disp]
  have hms : exactMatches r.points1 r.points2 = m :: t := by rw [← hmatches, hm]
  refine ⟨?_, ?_, ?_, ?_, ?_, ?_, ?_⟩
  · intro nm hnm
    rw [hs2]
    exact lookup_moveFold_mem r.alignment.recommended_displacement (walkNames c2) s.objs nm
      hnd hnm
  · intro nm hnm
    rw [hs2]
    exact lookup_moveFold_notmem r.alignment.recommended_displacement (walkNames c2) s.objs nm
      hnm
  · intro nm hnm
    rw [hs2]
    exact lookup_moveFold_notmem r.alignment.recommended_displacement (walkNames c2) s.objs nm
      (hdisj nm hnm)
  · have : r.alignment.primary_reference = (exactMatches r.points1 r.points2).head? := by
      rw [hal]
      rfl
    rw [this, hms]
    rfl
  · rw [hm]
    exact List.mem_cons_self m t
  · intro m2 hm2
    rw [hmatches] at hm2
    exact exactMatches_head_min r.points1 r.points2 m t hms m2 hm2
  · rw [hdisp]
    exact recommendedDisplacement_head r.points1 r.points2 m t hms

/-- Scene in which the mesh `IfcWall/W` is linked into both collections. -/
def sShared : Scene :=
  ⟨[⟨"IfcBuildingStorey/N1", "EMPTY", ⟨0, 0, 0⟩⟩,
    ⟨"IfcBuildingStorey/N1.001", "EMPTY", ⟨5, 0, 0⟩⟩,
    ⟨"IfcWall/W", "MESH", ⟨0, 0, 0⟩⟩],
    [.node "COLL1" ["IfcBuildingStorey/N1", "IfcWall/W"] .nil,
      .node "COLL2" ["IfcBuildingStorey/N1.001", "IfcWall/W"] .nil]⟩

def cShared1 : CollT := .node "COLL1" ["IfcBuildingStorey/N1", "IfcWall/W"] .nil

/-- Counterexample to claim C10 as stated: `IfcWall/W` is an object of
collection 1 (it is linked into both collections, which Blender allows), and
the successful alignment run moves it from the origin to `(-5, 0, 0)` — the
locations of collection 1's objects are not all left unchanged. -/
theorem claim_C10_counterexample :
    "IfcWall/W" ∈ walkNames cShared1 ∧
    findColl sShared.colls "COLL1" = some cShared1 ∧
    ((applyPreciseAlignment sShared "COLL1" "COLL2" "IfcBuildingStorey").map
      (fun s2 => lookupObj s2.objs "IfcWall/W")).toOption =
        some (some ⟨"IfcWall/W", "MESH", ⟨-5, 0, 0⟩⟩) ∧
    lookupObj sShared.objs "IfcWall/W" = some ⟨"IfcWall/W", "MESH", ⟨0, 0, 0⟩⟩ :=
  ⟨by decide, rfl, by with_unfolding_all decide, rfl⟩

/-- Disjoint two-collection scene for the C10 witness. -/
def sApply : Scene :=
  ⟨[⟨"IfcBuildingStorey/N1", "EMPTY", ⟨0, 0, 0⟩⟩,
    ⟨"IfcBuildingStorey/N1.001", "EMPTY", ⟨5, 0, 0⟩⟩,
    ⟨"IfcWall/M", "MESH", ⟨1, 1, 1⟩⟩],
    [.node "COLA" ["IfcBuildingStorey/N1"] .nil,
      .node "COLB" ["IfcBuildingStorey/N1.001", "IfcWall/M"] .nil]⟩

def cApplyA : CollT := .node "COLA" ["IfcBuildingStorey/N1"] .nil

def cApplyB : CollT := .node "COLB" ["IfcBuildingStorey/N1.001", "IfcWall/M"] .nil

def rApply : PreciseResult := mkPreciseResult sApply cApplyA cApplyB "IfcBuildingStorey"

def sApplied : Scene :=
  ⟨moveRecursive sApply.objs cApplyB rApply.alignment.recommended_displacement, sApply.colls⟩

def mApply : MatchRec :=
  ⟨"N1", ⟨"IfcBuildingStorey/N1", "N1", ⟨0, 0, 0⟩, "IfcBuildingStorey"⟩,
    ⟨"IfcBuildingStorey/N1.001", "N1", ⟨5, 0, 0⟩, "IfcBuildingStorey"⟩, 0⟩

/-- Witness for the amended claim C10 on the concrete scene `sApply`. -/
theorem claim_C10_witness :
    (walkNames cApplyB).Nodup ∧
    (∀ nm ∈ walkNames cApplyA, nm ∉ walkNames cApplyB) ∧
    rApply.alignment.exact_matches = mApply :: [] ∧
    ((∀ nm ∈ walkNames cApplyB,
      lookupObj sApplied.objs nm = (lookupObj sApply.objs nm).map
        (fun o => (⟨o.name, o.otype,
          o.location.add rApply.alignment.recommended_displacement⟩ : PObj))) ∧
    (∀ nm, nm ∉ walkNames cApplyB → lookupObj sApplied.objs nm = lookupObj sApply.objs nm) ∧
    (∀ nm ∈ walkNames cApplyA, lookupObj sApplied.objs nm = lookupObj sApply.objs nm) ∧
    rApply.alignment.primary_reference = some mApply ∧
    mApply ∈ rApply.alignment.exact_matches ∧
    (∀ m2 ∈ rApply.alignment.exact_matches, mApply.distance ≤ m2.distance) ∧
    rApply.alignment.recommended_displacement =
      ⟨mApply.point1.location.x - mApply.point2.location.x,
        mApply.point1.location.y - mApply.point2.location.y,
          mApply.point1.location.z - mApply.point2.location.z⟩) :=
  ⟨by decide, by decide, by with_unfolding_all decide,
    claim_C10 sApply "COLA" "COLB" "IfcBuildingStorey" sApplied rApply cApplyA cApplyB mApply []
      rfl rfl rfl rfl (by decide) (by decide) (by with_unfolding_all decide)⟩

/-- Witness for claim C2 on the concrete scene `wScene`. -/
theorem claim_C2_witness :
    walkObjs wScene.objs wCA ≠ [] ∧ walkObjs wScene.objs wCB ≠ [] ∧
    (Real.sqrt (wD.min_distance_sq : ℝ) =
      Real.sqrt ((specGapSq wScene.objs wCA wCB 0 + specGapSq wScene.objs wCA wCB 1 +
        specGapSq wScene.objs wCA wCB 2 : ℚ) : ℝ) ∧
    ((∀ i : Fin 3, ¬ specSeparated wScene.objs wCA wCB i) →
      Real.sqrt (wD.min_distance_sq : ℝ) = 0) ∧
    Real.sqrt (wD.max_distance_sq : ℝ) =
      Real.sqrt ((specMaxSq wScene.objs wCA wCB 0 + specMaxSq wScene.objs wCA wCB 1 +
        specMaxSq wScene.objs wCA wCB 2 : ℚ) : ℝ)) :=
  ⟨by decide, by decide,
    claim_C2 wScene "WA" "WB" wCA wCB wA1 wA2 wD wRecs rfl rfl (by decide) (by decide) rfl⟩

end BlenderBim
